import Mathlib

/-!
Darigo server: authentication core and property moderation.

A shallow embedding of `src/server.js`: the route handlers for property
creation, listing, owner update, owner delete and admin moderation, the
middleware `authenticateToken`, `requireAdmin` and `validateRegistration`, and
the user routes (register, login, token check, profile updates, admin toggle),
as pure functions over an explicit document store.

Conventions of the embedding:

* a request body is the object that `express.json` hands to the handler,
  an association list from keys to JavaScript values (`Obj`);
* a collection is a list of documents; `_id`s are natural numbers standing
  for ObjectIds that have already been cast;
* every `new Date()` of a handler is an explicit time argument;
* the patterns of the source are values of `Rx`, matched by backtracking;
* behaviour of the libraries (token signing and verification, password
  hashing, schema validation of the paths that are not tracked here) is
  passed in as a function argument.
-/

namespace Darigo

/-! ## JavaScript values and objects -/

/-- JavaScript values that occur in request bodies, token payloads and in the
objects the handlers build (`date` and `oid` only arise server-side). -/
inductive Value where
  | null : Value
  | bool (b : Bool) : Value
  | num (n : Int) : Value
  | str (s : String) : Value
  | arr (xs : List Value) : Value
  | obj (kvs : List (String × Value)) : Value
  | date (t : Nat) : Value
  | oid (n : Nat) : Value

/-- A JavaScript object: keys with their values; the first entry of a key is
the one a property read sees. -/
abbrev Obj := List (String × Value)

/-- Property read `o[k]`; `none` is `undefined`. -/
def getKey (o : Obj) (k : String) : Option Value :=
  (o.find? (fun kv => kv.1 == k)).map (fun kv => kv.2)

/-- Rest destructuring `const { k1, ..., kn, ...rest } = o`: the object without
the named keys. -/
def omitKeys (ks : List String) (o : Obj) : Obj :=
  o.filter (fun kv => !(ks.contains kv.1))

/-- Object spread followed by explicit properties, `{ ...o, k1: v1, ... }`:
the explicit properties replace entries of `o` with the same key. -/
def spreadWith (o : Obj) (props : Obj) : Obj :=
  omitKeys (props.map (fun kv => kv.1)) o ++ props

/-! ## Documents -/

/-- The six values of the `status` enum of `propertySchema`. -/
def statusEnum : List String :=
  ["pending", "approved", "rejected", "sold", "rented", "inactive"]

/-- A stored property document: the paths the moderation logic reads and
writes, and the remaining schema paths (`title`, `price`, ...) in `fields`. -/
structure Property where
  id : Nat
  owner : Nat
  status : String
  isPublished : Bool
  publishedAt : Option Nat
  createdAt : Nat
  updatedAt : Nat
  fields : Obj

/-- The principal `req.user` that `authenticateToken` attaches. -/
structure Principal where
  userId : Nat
  email : String
  userType : String

/-- What a property route leaves behind: the HTTP status code and message of
the response, the property carried in the response (if any) and the property
collection after the call. -/
structure PropResult where
  code : Nat
  message : String
  property : Option Property
  db : List Property

/-- The paths of `propertySchema` that `Property` tracks as typed fields. -/
def trackedPaths : List String :=
  ["_id", "owner", "status", "isPublished", "publishedAt", "createdAt", "updatedAt"]

/-- Mongoose boolean cast (`convertToTrue` / `convertToFalse`). -/
def castBool : Value → Option Bool
  | .bool b => some b
  | .str "true" => some true
  | .str "1" => some true
  | .str "yes" => some true
  | .num 1 => some true
  | .str "false" => some false
  | .str "0" => some false
  | .str "no" => some false
  | .num 0 => some false
  | _ => none

/-- Cast and enum validation of the `status` path: only a string of the enum
is stored. -/
def castStatus : Value → Option String
  | .str s => if statusEnum.contains s then some s else none
  | _ => none

/-- Date cast, for the values the handlers themselves supply. -/
def castDate : Value → Option Nat
  | .date t => some t
  | .num n => some n.toNat
  | _ => none

/-- Value of a hexadecimal digit, in either case. -/
def hexDigitValue (c : Char) : Option Nat :=
  if '0' ≤ c ∧ c ≤ '9' then some (c.toNat - '0'.toNat)
  else if 'a' ≤ c ∧ c ≤ 'f' then some (c.toNat - 'a'.toNat + 10)
  else if 'A' ≤ c ∧ c ≤ 'F' then some (c.toNat - 'A'.toNat + 10)
  else none

/-- The number that a string of hexadecimal digits writes; `none` when a
character is not a hexadecimal digit. -/
def parseHex (cs : List Char) : Option Nat :=
  cs.foldl (fun acc c => acc.bind (fun n => (hexDigitValue c).map (fun d => 16 * n + d)))
    (some 0)

/-- ObjectId cast of an ObjectId path (`owner`, `_id`): an ObjectId is kept,
a string of 24 hexadecimal digits is read as the ObjectId it writes; every
other value is a cast error. -/
def castOid : Value → Option Nat
  | .oid n => some n
  | .str s => if s.data.length = 24 then parseHex s.data else none
  | _ => none

/-- Hydration `new Property(data)` followed by validation, for a fresh `_id`:
`owner` is required, `status` defaults to `'pending'`, `isPublished` to
`false`; `validOther` is the schema validation of the untracked paths. -/
def newProperty (validOther : Obj → Bool) (newId : Nat) (data : Obj) : Option Property :=
  if validOther (omitKeys trackedPaths data) then
    match (getKey data "owner").bind castOid,
          (match getKey data "status" with
            | none => some "pending"
            | some v => castStatus v),
          (match getKey data "isPublished" with
            | none => some false
            | some v => castBool v),
          (match getKey data "publishedAt" with
            | none => some none
            | some v => (castDate v).map some),
          (getKey data "createdAt").bind castDate,
          (getKey data "updatedAt").bind castDate with
    | some o, some s, some b, some pa, some c, some u =>
      some { id := newId, owner := o, status := s, isPublished := b, publishedAt := pa,
             createdAt := c, updatedAt := u, fields := omitKeys trackedPaths data }
    | _, _, _, _, _, _ => none
  else none

/-! ## `POST /api/properties` -/

/-- Handler of `POST /api/properties` (after `authenticateToken` and
`validateProperty`): strips `status`, `isPublished`, `publishedAt` from the
body, forces owner, `'pending'` and `false`, saves the new document. -/
def createProperty (validOther : Obj → Bool) (newId tCreated tUpdated : Nat)
    (user : Principal) (body : Obj) (db : List Property) : PropResult :=
  let cleanBody := omitKeys ["status", "isPublished", "publishedAt"] body
  let propertyData := spreadWith cleanBody
    [("owner", .oid user.userId), ("status", .str "pending"), ("isPublished", .bool false),
     ("createdAt", .date tCreated), ("updatedAt", .date tUpdated)]
  match newProperty validOther newId propertyData with
  | some property =>
    { code := 201, message := "تم إضافة العقار بنجاح. سيتم نشره بعد موافقة الإدارة",
      property := some property, db := db ++ [property] }
  | none =>
    { code := 500, message := "خطأ في إضافة العقار", property := none, db := db }

/-! ## `PATCH /api/admin/properties/:propertyId/status` -/

/-- The test `['pending', 'approved', 'rejected'].includes(status)` on the
value read from the body; `includes` compares with strict equality, so only a
string equal to one of the three passes. -/
def legalTarget : Option Value → Option String
  | some (.str s) => if ["pending", "approved", "rejected"].contains s then some s else none
  | _ => none

/-- Lookup `Property.findById(id)`. -/
def findById (id : Nat) (db : List Property) : Option Property :=
  db.find? (fun p => p.id == id)

/-- Write-back `property.save()` of a loaded document: the stored document
with that `_id` is replaced. -/
def saveProperty (p : Property) : List Property → List Property
  | [] => []
  | q :: qs => if q.id == p.id then p :: qs else q :: saveProperty p qs

/-- The assignments of the handler between `findById` and `save`:
`status` and `updatedAt` always, `isPublished` and `publishedAt` on
`'approved'`, `isPublished` on `'rejected'`, nothing more on `'pending'`. -/
def moderate (tUpdated tPublished : Nat) (status : String) (property : Property) : Property :=
  let property := { property with status := status }
  let property := { property with updatedAt := tUpdated }
  if status == "approved" then
    { property with isPublished := true, publishedAt := some tPublished }
  else if status == "rejected" then
    { property with isPublished := false }
  else property

/-- The message template of the success response. -/
def statusMessage (status : String) : String :=
  "تم " ++ (if status == "approved" then "اعتماد ونشر"
            else if status == "rejected" then "رفض" else "تحديث") ++ " العقار بنجاح"

/-- Handler of `PATCH /api/admin/properties/:propertyId/status` (after
`authenticateToken` and `requireAdmin`), for a `:propertyId` that
`Property.findById` casts to the ObjectId `propertyId`; the cast itself is in
`setPropertyStatusRoute`. -/
def setPropertyStatus (tUpdated tPublished : Nat) (propertyId : Nat) (body : Obj)
    (db : List Property) : PropResult :=
  match legalTarget (getKey body "status") with
  | none => { code := 400, message := "حالة غير صحيحة", property := none, db := db }
  | some status =>
    match findById propertyId db with
    | none => { code := 404, message := "العقار غير موجود", property := none, db := db }
    | some property =>
      let property := moderate tUpdated tPublished status property
      { code := 200, message := statusMessage status, property := some property,
        db := saveProperty property db }

/-- Handler of `PATCH /api/admin/properties/:propertyId/status` on the path
parameter as it arrives, a string: the status test comes first; then
`Property.findById` casts the parameter with `castId`, and a cast error
(`none`) is thrown into the catch block, which answers 500. -/
def setPropertyStatusRoute (castId : Value → Option Nat) (tUpdated tPublished : Nat)
    (propertyId : String) (body : Obj) (db : List Property) : PropResult :=
  match legalTarget (getKey body "status") with
  | none => { code := 400, message := "حالة غير صحيحة", property := none, db := db }
  | some _ =>
    match castId (.str propertyId) with
    | none =>
      { code := 500, message := "خطأ في تحديث حالة العقار", property := none, db := db }
    | some id => setPropertyStatus tUpdated tPublished id body db

/-! ## `PUT /api/properties/:id` -/

/-- A key that begins with `$`, the test `/^\$/` of the sanitizer and the mark
of an update operator. -/
def isOperatorKey (k : String) : Bool :=
  match k.data with
  | c :: _ => c == '$'
  | [] => false

/-- Mongoose reading of an update document: keys that do not begin with `$`
are sugar for `$set` and are written into the object of an explicit `$set`
operator when there is one. The result is the effective `$set` map; `none`
stands for a `$set` that is not an object, which Mongoose refuses. The other
operators of the document are read by `operatorEffect`. -/
def castUpdate (update : Obj) : Option Obj :=
  let plain := update.filter (fun kv => !(isOperatorKey kv.1))
  match getKey update "$set" with
  | none => some plain
  | some (.obj sets) => some (spreadWith sets plain)
  | some _ => none

/-- The entries of an update document under operators other than `$set`
(`$inc`, `$unset`, `$push`, ...). -/
def otherOperators (update : Obj) : Obj :=
  update.filter (fun kv => isOperatorKey kv.1 && kv.1 != "$set")

/-- What the operators other than `$set` do to a matched document. Their
reading by Mongoose and MongoDB is `operators`: `none` when the update
document is refused (a cast error, an unknown operator, a conflict with
`$set`), otherwise the change they make; it is consulted only when the
document carries such an operator. -/
def operatorEffect {α : Type} (operators : Obj → Option (α → α)) (update : Obj) :
    Option (α → α) :=
  if (otherOperators update).isEmpty then some id else operators update

/-- An update after casting: for each tracked path the value to write (if the
update names the path), the `_id` the update names (if any), and the entries
for the remaining paths. -/
structure Sets where
  id : Option Nat
  owner : Option Nat
  status : Option String
  isPublished : Option Bool
  publishedAt : Option (Option Nat)
  createdAt : Option Nat
  updatedAt : Option Nat
  fields : Obj

/-- Casting of one path of a `$set` map: absent writes nothing, present must
cast. -/
def castPath {α : Type} (cast : Value → Option α) : Option Value → Option (Option α)
  | none => some none
  | some v => (cast v).map some

/-- Casting and validation (`runValidators`) of an effective `$set` map:
tracked paths are cast and validated here, the other paths are validated by
`validOther`. -/
def castSets (validOther : Obj → Bool) (sets : Obj) : Option Sets :=
  if validOther (omitKeys trackedPaths sets) then
    match castPath castOid (getKey sets "owner"),
          castPath castStatus (getKey sets "status"),
          castPath castBool (getKey sets "isPublished"),
          castPath (fun v => (castDate v).map some) (getKey sets "publishedAt"),
          castPath castDate (getKey sets "createdAt"),
          castPath castDate (getKey sets "updatedAt"),
          castPath castOid (getKey sets "_id") with
    | some o, some s, some b, some pa, some c, some u, some i =>
      some { id := i, owner := o, status := s, isPublished := b, publishedAt := pa,
             createdAt := c, updatedAt := u, fields := omitKeys trackedPaths sets }
    | _, _, _, _, _, _, _ => none
  else none

/-- Whether a cast update names an `_id` other than that of the document it
is applied to: MongoDB refuses to alter the immutable `_id`. -/
def altersId (id : Option Nat) (stored : Nat) : Bool :=
  match id with
  | none => false
  | some i => i != stored

/-- Application of a cast update to a stored document. -/
def applySets (s : Sets) (p : Property) : Property :=
  { p with owner := s.owner.getD p.owner,
           status := s.status.getD p.status,
           isPublished := s.isPublished.getD p.isPublished,
           publishedAt := s.publishedAt.getD p.publishedAt,
           createdAt := s.createdAt.getD p.createdAt,
           updatedAt := s.updatedAt.getD p.updatedAt,
           fields := spreadWith p.fields s.fields }

/-- Outcome of `Property.findOneAndUpdate(filter, update, { new: true, runValidators: true })`:
the update is cast first (a failure throws), then the first document matching
the filter is rewritten and returned (an update that would alter its `_id`
throws), or `null` is returned. -/
inductive UpdateOutcome where
  | threw : UpdateOutcome
  | noMatch : UpdateOutcome
  | updated (p : Property) (db : List Property) : UpdateOutcome

/-- Rewrites the first document that satisfies the filter. -/
def rewriteFirst (filter : Property → Bool) (f : Property → Property) :
    List Property → List Property
  | [] => []
  | q :: qs => if filter q then f q :: qs else q :: rewriteFirst filter f qs

/-- Model of `Property.findOneAndUpdate`. -/
def findOneAndUpdate (validOther : Obj → Bool) (operators : Obj → Option (Property → Property))
    (filter : Property → Bool) (update : Obj) (db : List Property) : UpdateOutcome :=
  match (castUpdate update).bind (castSets validOther), operatorEffect operators update with
  | some sets, some effect =>
    match db.find? filter with
    | none => .noMatch
    | some p =>
      if altersId sets.id p.id then .threw
      else
        .updated (effect (applySets sets p))
          (rewriteFirst filter (fun q => effect (applySets sets q)) db)
  | _, _ => .threw

/-- Handler of `PUT /api/properties/:id` (after `authenticateToken`): strips
`status`, `isPublished`, `publishedAt`, `owner` from the body, adds
`updatedAt`, and updates the document with that id owned by the caller. -/
def updateProperty (validOther : Obj → Bool) (operators : Obj → Option (Property → Property))
    (tUpdated : Nat) (user : Principal) (id : Nat) (body : Obj) (db : List Property) :
    PropResult :=
  let cleanBody := omitKeys ["status", "isPublished", "publishedAt", "owner"] body
  let updateData := spreadWith cleanBody [("updatedAt", .date tUpdated)]
  match findOneAndUpdate validOther operators (fun p => p.id == id && p.owner == user.userId)
      updateData db with
  | .threw => { code := 500, message := "خطأ في تحديث العقار", property := none, db := db }
  | .noMatch =>
    { code := 404, message := "العقار غير موجود أو ليس لديك صلاحية لتعديله",
      property := none, db := db }
  | .updated property db1 =>
    { code := 200, message := "تم تحديث العقار بنجاح", property := some property, db := db1 }

/-! ## Global middleware, in registration order -/

mutual
/-- The `mongo-sanitize` function: in objects (arrays included) every key that
begins with `$` is deleted, recursively. -/
def sanitize : Value → Value
  | .obj kvs => .obj (sanitizeObj kvs)
  | .arr xs => .arr (sanitizeArr xs)
  | v => v
/-- Sanitizer on the entries of an object. -/
def sanitizeObj : List (String × Value) → List (String × Value)
  | [] => []
  | (k, v) :: rest =>
    if isOperatorKey k then sanitizeObj rest else (k, sanitize v) :: sanitizeObj rest
/-- Sanitizer on the elements of an array. -/
def sanitizeArr : List Value → List Value
  | [] => []
  | x :: xs => sanitize x :: sanitizeArr xs
end

/-- An HTTP request as the middleware chain sees it: the `Authorization`
header, the JSON object sent on the wire, and the `req.body` property, which
is `undefined` until a body parser has run. -/
structure Req where
  authorization : Option String
  payload : Obj
  body : Option Obj

/-- A request as Express hands it to the first middleware. -/
def incoming (authorization : Option String) (payload : Obj) : Req :=
  { authorization := authorization, payload := payload, body := none }

/-- The sanitizing middleware: `if (req.body) req.body = mongoSanitize(req.body)`. -/
def sanitizeMiddleware (req : Req) : Req :=
  match req.body with
  | some b => { req with body := some (sanitizeObj b) }
  | none => req

/-- The body parser `express.json(...)`: sets `req.body` to the parsed payload. -/
def jsonParser (req : Req) : Req :=
  { req with body := some req.payload }

/-- The two global middleware in the order of their `app.use` calls: the
sanitizer is registered before the body parser. -/
def globalMiddleware (req : Req) : Req :=
  jsonParser (sanitizeMiddleware req)

/-- The body a route handler reads for a request that carries `payload`. -/
def handlerBody (payload : Obj) : Obj :=
  ((globalMiddleware (incoming none payload)).body).getD []

/-! ## Operations on one property, as requests -/

/-- An operation of the moderation life cycle on an existing property: an
admin status request or an owner update request, with the JSON payload it
sends and the clock readings of its handler. -/
inductive Op where
  | adminStatus (payload : Obj) (tUpdated tPublished : Nat) : Op
  | ownerUpdate (payload : Obj) (tUpdated : Nat) : Op

/-- One operation on the property `id` owned by `owner`. -/
def step (validOther : Obj → Bool) (operators : Obj → Option (Property → Property))
    (owner : Principal) (id : Nat) (db : List Property) : Op → List Property
  | .adminStatus payload tU tP => (setPropertyStatus tU tP id (handlerBody payload) db).db
  | .ownerUpdate payload tU =>
    (updateProperty validOther operators tU owner id (handlerBody payload) db).db

/-- The property collection after a creation by `owner` followed by a finite
sequence of operations on the created property. -/
def lifeCycle (validOther : Obj → Bool) (operators : Obj → Option (Property → Property))
    (newId tCreated tUpdated : Nat) (owner : Principal) (payload : Obj) (ops : List Op) :
    List Property :=
  ops.foldl (step validOther operators owner newId)
    (createProperty validOther newId tCreated tUpdated owner (handlerBody payload) []).db

/-! ## `authenticateToken` -/

/-- The process environment the middleware reads. -/
structure Env where
  nodeEnv : Option String
  jwtSecret : Option String

/-- The constant `isProduction`. -/
def isProduction (env : Env) : Bool :=
  env.nodeEnv == some "production"

/-- The well-known fallback key of the source. -/
def placeholderSecret : String :=
  "darigo-super-secret-key-change-this-in-production"

/-- A stored user document. -/
structure User where
  id : Nat
  name : String
  email : String
  phone : String
  password : String
  userType : String
  isActive : Bool
  isVerified : Bool
  lastLogin : Option Nat
  fields : Obj

/-- What `jwt.verify(token, secret)` does: returns the payload, or throws one
of its error classes. -/
inductive VerifyResult where
  | decoded (payload : Value) : VerifyResult
  | tokenExpired : VerifyResult
  | jsonWebTokenError : VerifyResult
  | otherError : VerifyResult

/-- The calls the middleware makes to its collaborators, in order. -/
inductive Effect where
  | verify (token secret : String) : Effect
  | findUser (id : Value) : Effect

/-- What one run of `authenticateToken` leaves behind: the response it sent
(if any), whether it called `next`, the principal it attached to the request
and the calls it made. -/
structure AuthResult where
  code : Option Nat
  message : Option String
  next : Bool
  user : Option Principal
  trace : List Effect

/-- A terminal `res.status(code).json(...)`. -/
def respond (code : Nat) (message : String) (trace : List Effect) : AuthResult :=
  { code := some code, message := some message, next := false, user := none, trace := trace }

/-- JavaScript `split(sep)` for a one-character separator. -/
def splitOnChar (sep : Char) : List Char → List (List Char)
  | [] => [[]]
  | c :: cs =>
    if c = sep then [] :: splitOnChar sep cs
    else
      match splitOnChar sep cs with
      | [] => [[c]]
      | p :: ps => (c :: p) :: ps

/-- JavaScript truthiness of a value that may be `undefined`. -/
def truthy : Option Value → Bool
  | none => false
  | some .null => false
  | some (.bool b) => b
  | some (.num n) => n != 0
  | some (.str s) => s != ""
  | some _ => true

/-- The read `decoded.userId` on a payload that is not `null`. -/
def decodedUserId : Value → Option Value
  | .obj kvs => getKey kvs "userId"
  | _ => none

/-- The part of `authenticateToken` after `jwt.verify` has returned: the
`userId` test, the user lookup, the activation test and the attachment of the
principal. `castId` is the ObjectId cast of `User.findById` (`none` when it
throws a cast error, which the catch block answers). -/
def attachUser (castId : Value → Option Nat) (users : List User) (token secret : String)
    (userId : Option Value) : AuthResult :=
  match userId with
  | none => respond 401 "الرمز المميز غير صالح" [.verify token secret]
  | some uid =>
    if !(truthy (some uid)) then respond 401 "الرمز المميز غير صالح" [.verify token secret]
    else
      match castId uid with
      | none =>
        respond 401 "خطأ في التحقق من الرمز المميز" [.verify token secret, .findUser uid]
      | some id =>
        match users.find? (fun u => u.id == id) with
        | none => respond 401 "المستخدم غير موجود" [.verify token secret, .findUser uid]
        | some user =>
          if !user.isActive then
            respond 401 "الحساب غير نشط. يرجى الاتصال بالدعم"
              [.verify token secret, .findUser uid]
          else
            { code := none, message := none, next := true,
              user := some { userId := user.id, email := user.email,
                             userType := user.userType },
              trace := [.verify token secret, .findUser uid] }

/-- The part of `authenticateToken` from `jwt.verify` on, with the catch
block. -/
def resolveToken (jwtVerify : String → String → VerifyResult) (castId : Value → Option Nat)
    (users : List User) (token secret : String) : AuthResult :=
  match jwtVerify token secret with
  | .tokenExpired =>
    respond 401 "انتهت صلاحية الرمز المميز. يرجى تسجيل الدخول مرة أخرى" [.verify token secret]
  | .jsonWebTokenError => respond 401 "الرمز المميز غير صالح" [.verify token secret]
  | .otherError => respond 401 "خطأ في التحقق من الرمز المميز" [.verify token secret]
  | .decoded .null => respond 401 "خطأ في التحقق من الرمز المميز" [.verify token secret]
  | .decoded payload => attachUser castId users token secret (decodedUserId payload)

/-- The middleware `authenticateToken`. -/
def authenticateToken (jwtVerify : String → String → VerifyResult)
    (castId : Value → Option Nat) (env : Env) (users : List User)
    (authHeader : Option String) : AuthResult :=
  match authHeader with
  | none => respond 401 "الرمز المميز مطلوب للمصادقة" []
  | some header =>
    if header == "" then respond 401 "الرمز المميز مطلوب للمصادقة" []
    else
      let parts := splitOnChar ' ' header.data
      if parts.length != 2 || parts.head? != some "Bearer".data then
        respond 401 "تنسيق الرمز المميز غير صحيح" []
      else
        let token := parts.getD 1 []
        if token.length < 10 || token.length > 500 then
          respond 401 "الرمز المميز غير صالح" []
        else
          let secretSet : Bool :=
            match env.jwtSecret with
            | none => false
            | some s => s != ""
          if (!secretSet || env.jwtSecret == some placeholderSecret) && isProduction env then
            respond 500 "خطأ في إعدادات الخادم" []
          else
            resolveToken jwtVerify castId users (String.mk token)
              (if secretSet then env.jwtSecret.getD placeholderSecret else placeholderSecret)

/-! ## The secret in use -/

/-- The test `!jwtSecret || jwtSecret === '<placeholder>'` of `authenticateToken`. -/
def secretUnusable (env : Env) : Bool :=
  match env.jwtSecret with
  | none => true
  | some s => s == "" || s == placeholderSecret

/-- The expression `process.env.JWT_SECRET || '<placeholder>'`, the key that
`jwt.sign` and `jwt.verify` are called with. -/
def secretInUse (env : Env) : String :=
  match env.jwtSecret with
  | none => placeholderSecret
  | some s => if s == "" then placeholderSecret else s

/-! ## `requireAdmin` -/

/-- What one run of `requireAdmin` leaves behind: the response it sent (if
any), whether it called `next`, and the `req.adminUser` it attached. -/
structure AdminResult where
  code : Option Nat
  message : Option String
  next : Bool
  adminUser : Option User

/-- The middleware `requireAdmin`: re-reads the user stored under
`req.user.userId` and lets the request through only for `userType`
`'admin'`. -/
def requireAdmin (users : List User) (principal : Principal) : AdminResult :=
  match users.find? (fun u => u.id == principal.userId) with
  | none =>
    { code := some 403, message := some "ليس لديك صلاحية إدارية", next := false,
      adminUser := none }
  | some user =>
    if user.userType != "admin" then
      { code := some 403, message := some "ليس لديك صلاحية إدارية", next := false,
        adminUser := none }
    else { code := none, message := none, next := true, adminUser := some user }

/-! ## `DELETE /api/properties/:id` -/

/-- Handler of `DELETE /api/properties/:id` (after `authenticateToken`):
`findOneAndDelete` on the document with that id owned by the caller. -/
def deleteProperty (user : Principal) (id : Nat) (db : List Property) : PropResult :=
  match db.find? (fun p => p.id == id && p.owner == user.userId) with
  | none =>
    { code := 404, message := "العقار غير موجود أو ليس لديك صلاحية لحذفه",
      property := none, db := db }
  | some _ =>
    { code := 200, message := "تم حذف العقار بنجاح", property := none,
      db := db.eraseP (fun p => p.id == id && p.owner == user.userId) }

/-- Whether the update document that the owner update handler builds from a
body passes the casting and validation that precede the query: its `$set` map
and its other operators. -/
def updateAccepted (validOther : Obj → Bool) (operators : Obj → Option (Property → Property))
    (tUpdated : Nat) (body : Obj) : Bool :=
  ((castUpdate (spreadWith (omitKeys ["status", "isPublished", "publishedAt", "owner"] body)
    [("updatedAt", .date tUpdated)])).bind (castSets validOther)).isSome &&
  (operatorEffect operators
    (spreadWith (omitKeys ["status", "isPublished", "publishedAt", "owner"] body)
      [("updatedAt", .date tUpdated)])).isSome

/-! ## User updates -/

/-- The three values of the `userType` enum of `userSchema`. -/
def userTypeEnum : List String :=
  ["individual", "agency", "admin"]

/-- The paths of `userSchema` that `User` tracks as typed fields. -/
def userTrackedPaths : List String :=
  ["_id", "name", "email", "phone", "password", "userType", "isActive", "isVerified",
   "lastLogin"]

/-- String cast, for values that are strings already. -/
def castString : Value → Option String
  | .str s => some s
  | _ => none

/-- Cast and enum validation of the `userType` path. -/
def castUserType : Value → Option String
  | .str s => if userTypeEnum.contains s then some s else none
  | _ => none

/-- A user update after casting. -/
structure UserSets where
  id : Option Nat
  name : Option String
  email : Option String
  phone : Option String
  password : Option String
  userType : Option String
  isActive : Option Bool
  isVerified : Option Bool
  lastLogin : Option (Option Nat)
  fields : Obj

/-- Casting and validation (`runValidators`) of an effective `$set` map on a
user: `userType` against its enum, the flags as booleans; the length and
pattern validators of `name`, `email`, `phone`, `password` and the validation
of the remaining paths are `validOther`. -/
def castUserSets (validOther : Obj → Bool) (sets : Obj) : Option UserSets :=
  if validOther (omitKeys ["_id", "userType", "isActive", "isVerified", "lastLogin"] sets) then
    match castPath castString (getKey sets "name"),
          castPath castString (getKey sets "email"),
          castPath castString (getKey sets "phone"),
          castPath castString (getKey sets "password"),
          castPath castUserType (getKey sets "userType"),
          castPath castBool (getKey sets "isActive"),
          castPath castBool (getKey sets "isVerified"),
          castPath (fun v => (castDate v).map some) (getKey sets "lastLogin"),
          castPath castOid (getKey sets "_id") with
    | some n, some e, some ph, some pw, some ut, some a, some v, some l, some i =>
      some { id := i, name := n, email := e, phone := ph, password := pw, userType := ut,
             isActive := a, isVerified := v, lastLogin := l,
             fields := omitKeys userTrackedPaths sets }
    | _, _, _, _, _, _, _, _, _ => none
  else none

/-- Application of a cast update to a stored user. -/
def applyUserSets (s : UserSets) (u : User) : User :=
  { u with name := s.name.getD u.name,
           email := s.email.getD u.email,
           phone := s.phone.getD u.phone,
           password := s.password.getD u.password,
           userType := s.userType.getD u.userType,
           isActive := s.isActive.getD u.isActive,
           isVerified := s.isVerified.getD u.isVerified,
           lastLogin := s.lastLogin.getD u.lastLogin,
           fields := spreadWith u.fields s.fields }

/-- Outcome of `User.findByIdAndUpdate(id, update, { new: true, runValidators: true })`. -/
inductive UserUpdateOutcome where
  | threw : UserUpdateOutcome
  | noMatch : UserUpdateOutcome
  | updated (u : User) (users : List User) : UserUpdateOutcome

/-- Rewrites the first user with the given id. -/
def rewriteUser (id : Nat) (f : User → User) : List User → List User
  | [] => []
  | u :: us => if u.id == id then f u :: us else u :: rewriteUser id f us

/-- Model of `User.findByIdAndUpdate`: the update is cast first (a failure
throws), then the user with that id is rewritten and returned (an update that
would alter its `_id` throws), or `null` is returned; the id `none` is an
`undefined` id, which matches no document. -/
def findByIdAndUpdate (validOther : Obj → Bool) (operators : Obj → Option (User → User))
    (id : Option Nat) (update : Obj) (users : List User) : UserUpdateOutcome :=
  match (castUpdate update).bind (castUserSets validOther), operatorEffect operators update with
  | some sets, some effect =>
    match id.bind (fun i => users.find? (fun u => u.id == i)) with
    | none => .noMatch
    | some u =>
      if altersId sets.id u.id then .threw
      else
        .updated (effect (applyUserSets sets u))
          (rewriteUser u.id (fun v => effect (applyUserSets sets v)) users)
  | _, _ => .threw

/-- The object `userResponse`: a user document without its `password`. -/
structure UserView where
  id : Nat
  name : String
  email : String
  phone : String
  userType : String
  isActive : Bool
  isVerified : Bool
  lastLogin : Option Nat
  fields : Obj

/-- The statements `user.toObject()` and `delete userResponse.password`. -/
def toResponse (u : User) : UserView :=
  { id := u.id, name := u.name, email := u.email, phone := u.phone, userType := u.userType,
    isActive := u.isActive, isVerified := u.isVerified, lastLogin := u.lastLogin,
    fields := u.fields }

/-- What a user route leaves behind: status code and message, the user in the
response (if any), the user collection after the call and the calls made to
`jwt.verify`. -/
structure UserResult where
  code : Nat
  message : String
  user : Option UserView
  users : List User
  trace : List Effect

/-- Handler of `PUT /api/users/profile` (after `authenticateToken`): takes
`password` out of the body, puts its hash back when it is truthy, and updates
the caller's document with everything else the body carries. `hash` is
`bcrypt.hash(_, 12)`, which throws on a value that is not a string. -/
def updateProfile (hash : String → String) (validOther : Obj → Bool)
    (operators : Obj → Option (User → User)) (tUpdated : Nat) (principal : Principal)
    (body : Obj) (users : List User) : UserResult :=
  let password := getKey body "password"
  let updateData := omitKeys ["password"] body
  let hashed : Option Obj :=
    if truthy password then
      match password with
      | some (.str pw) => some (spreadWith updateData [("password", .str (hash pw))])
      | _ => none
    else some updateData
  match hashed with
  | none =>
    { code := 500, message := "خطأ في تحديث الملف الشخصي", user := none, users := users,
      trace := [] }
  | some updateData =>
    match findByIdAndUpdate validOther operators (some principal.userId)
        (spreadWith updateData [("updatedAt", .date tUpdated)]) users with
    | .threw =>
      { code := 500, message := "خطأ في تحديث الملف الشخصي", user := none, users := users,
        trace := [] }
    | .noMatch =>
      { code := 404, message := "المستخدم غير موجود", user := none, users := users,
        trace := [] }
    | .updated user users1 =>
      { code := 200, message := "تم تحديث الملف الشخصي بنجاح", user := some (toResponse user),
        users := users1, trace := [] }

/-- Handler of `PUT /api/auth/profile`: the token travels in the body, is
verified under `secretInUse`, and the user it names is updated with the rest
of the body. -/
def updateAuthProfile (jwtVerify : String → String → VerifyResult)
    (castId : Value → Option Nat) (validOther : Obj → Bool)
    (operators : Obj → Option (User → User)) (env : Env) (tUpdated : Nat)
    (body : Obj) (users : List User) : UserResult :=
  let token := getKey body "token"
  let updateData := omitKeys ["token"] body
  if !(truthy token) then
    { code := 400, message := "الرمز المميز مطلوب", user := none, users := users, trace := [] }
  else
    match token with
    | some (.str tok) =>
      match jwtVerify tok (secretInUse env) with
      | .decoded .null =>
        { code := 500, message := "خطأ في تحديث الملف الشخصي", user := none, users := users,
          trace := [.verify tok (secretInUse env)] }
      | .decoded payload =>
        match (match decodedUserId payload with
               | none => some none
               | some uid => (castId uid).map some) with
        | none =>
          { code := 500, message := "خطأ في تحديث الملف الشخصي", user := none,
            users := users, trace := [.verify tok (secretInUse env)] }
        | some id =>
          match findByIdAndUpdate validOther operators id
              (spreadWith updateData [("updatedAt", .date tUpdated)]) users with
          | .threw =>
            { code := 500, message := "خطأ في تحديث الملف الشخصي", user := none,
              users := users, trace := [.verify tok (secretInUse env)] }
          | .noMatch =>
            { code := 404, message := "المستخدم غير موجود", user := none, users := users,
              trace := [.verify tok (secretInUse env)] }
          | .updated user users1 =>
            { code := 200, message := "تم تحديث الملف الشخصي بنجاح",
              user := some (toResponse user), users := users1,
              trace := [.verify tok (secretInUse env)] }
      | _ =>
        { code := 500, message := "خطأ في تحديث الملف الشخصي", user := none, users := users,
          trace := [.verify tok (secretInUse env)] }
    | _ =>
      { code := 500, message := "خطأ في تحديث الملف الشخصي", user := none, users := users,
        trace := [] }

/-- Handler of `POST /api/auth/verify-token`: the token travels in the body
and is verified under `secretInUse`; every failure, thrown or not, is answered
with 401 and the same message. -/
def verifyTokenRoute (jwtVerify : String → String → VerifyResult)
    (castId : Value → Option Nat) (env : Env) (body : Obj) (users : List User) : UserResult :=
  let token := getKey body "token"
  if !(truthy token) then
    { code := 400, message := "الرمز المميز مطلوب", user := none, users := users, trace := [] }
  else
    match token with
    | some (.str tok) =>
      match jwtVerify tok (secretInUse env) with
      | .decoded .null =>
        { code := 401, message := "الرمز المميز غير صالح", user := none, users := users,
          trace := [.verify tok (secretInUse env)] }
      | .decoded payload =>
        match ((decodedUserId payload).bind castId).bind
            (fun id => users.find? (fun u => u.id == id)) with
        | none =>
          { code := 401, message := "الرمز المميز غير صالح", user := none, users := users,
            trace := [.verify tok (secretInUse env)] }
        | some user =>
          if !user.isActive then
            { code := 401, message := "الرمز المميز غير صالح", user := none, users := users,
              trace := [.verify tok (secretInUse env)] }
          else
            { code := 200, message := "الرمز المميز صالح", user := some (toResponse user),
              users := users, trace := [.verify tok (secretInUse env)] }
      | _ =>
        { code := 401, message := "الرمز المميز غير صالح", user := none, users := users,
          trace := [.verify tok (secretInUse env)] }
    | _ =>
      { code := 401, message := "الرمز المميز غير صالح", user := none, users := users,
        trace := [] }

/-! ## `PATCH /api/admin/users/:userId/toggle-status` -/

/-- Write-back `user.save()` of a modified user document: `userSchema` is
declared with `timestamps: true`, so the save refreshes `updatedAt` (kept in
`fields`) and replaces the stored document with that `_id`. -/
def saveUser (tSaved : Nat) (user : User) (users : List User) : List User :=
  rewriteUser user.id
    (fun _ => { user with fields := spreadWith user.fields [("updatedAt", .date tSaved)] })
    users

/-- What the toggle route leaves behind: status code, message, the `isActive`
of the response data and the user collection after the call. -/
structure ToggleResult where
  code : Nat
  message : String
  isActive : Option Bool
  users : List User

/-- Handler of `PATCH /api/admin/users/:userId/toggle-status` (after
`authenticateToken` and `requireAdmin`), for a `:userId` that `User.findById`
casts to the ObjectId `userId`; the cast itself is in `toggleUserStatusRoute`. -/
def toggleUserStatus (tSaved : Nat) (userId : Nat) (users : List User) : ToggleResult :=
  match users.find? (fun u => u.id == userId) with
  | none => { code := 404, message := "المستخدم غير موجود", isActive := none, users := users }
  | some user =>
    let user := { user with isActive := !user.isActive }
    { code := 200,
      message := "تم " ++ (if user.isActive then "تفعيل" else "إلغاء تفعيل") ++ " المستخدم بنجاح",
      isActive := some user.isActive,
      users := saveUser tSaved user users }

/-- Handler of `PATCH /api/admin/users/:userId/toggle-status` on the path
parameter as it arrives, a string: `User.findById` casts it with `castId`, and
a cast error (`none`) is thrown into the catch block, which answers 500. -/
def toggleUserStatusRoute (castId : Value → Option Nat) (tSaved : Nat) (userId : String)
    (users : List User) : ToggleResult :=
  match castId (.str userId) with
  | none =>
    { code := 500, message := "خطأ في تغيير حالة المستخدم", isActive := none, users := users }
  | some id => toggleUserStatus tSaved id users

/-! ## `GET /api/properties` -/

/-- Assignment `o[k] = v` on an object. -/
def setKey (o : Obj) (k : String) (v : Value) : Obj :=
  spreadWith o [(k, v)]

/-- A number that may be `NaN`, as a value (`NaN` is written `null`). -/
def numberValue : Option Int → Value
  | some n => .num n
  | none => .null

/-- The assignments the listing handler makes to `query` after its first two
properties, in source order, each with the key it writes; `none` when
`features.split(',')` throws because `features` is not a string. `parseInt`
is the JavaScript built-in (`none` for `NaN`). -/
def listingConditions (parseInt : Value → Option Int) (params : Obj) : Option Obj :=
  let pick (name key : String) : Obj :=
    match getKey params name with
    | some v => if truthy (some v) then [(key, v)] else []
    | none => []
  let bound (op name : String) : Obj :=
    match getKey params name with
    | some v => if truthy (some v) then [(op, numberValue (parseInt v))] else []
    | none => []
  let range (lo hi key : String) : Obj :=
    if truthy (getKey params lo) || truthy (getKey params hi) then
      [(key, .obj (bound "$gte" lo ++ bound "$lte" hi))]
    else []
  let exact (name : String) : Obj :=
    match getKey params name with
    | some v => [(name, numberValue (parseInt v))]
    | none => []
  let features : Option Obj :=
    match getKey params "features" with
    | none => some []
    | some (.str f) =>
      if f == "" then some []
      else some [("features",
        .obj [("$in", .arr ((splitOnChar ',' f.data).map (fun part => .str (String.mk part))))])]
    | some v => if truthy (some v) then none else some []
  features.map (fun fs =>
    pick "type" "type" ++ pick "category" "category" ++ pick "city" "location.city" ++
    pick "district" "location.district" ++ range "minPrice" "maxPrice" "price" ++
    range "minArea" "maxArea" "area" ++ exact "rooms" ++ exact "bathrooms" ++ fs)

/-- The object `query` of the listing handler: `status` and `isPublished`
first, then the assignments the parameters ask for. -/
def listingQuery (parseInt : Value → Option Int) (params : Obj) : Option Obj :=
  (listingConditions parseInt params).map (fun conds =>
    conds.foldl (fun q kv => setKey q kv.1 kv.2)
      [("status", .str "approved"), ("isPublished", .bool true)])

/-- Whether a stored property satisfies a query object: equality conditions on
`status` and `isPublished` are evaluated here, the conditions on the other
paths by `matchOther`; all conditions of a query object must hold. -/
def matchesQuery (matchOther : Obj → Property → Bool) (query : Obj) (p : Property) : Bool :=
  (match getKey query "status" with
    | none => true
    | some (.str s) => p.status == s
    | some _ => false) &&
  (match getKey query "isPublished" with
    | none => true
    | some (.bool b) => p.isPublished == b
    | some _ => false) &&
  matchOther (omitKeys ["status", "isPublished"] query) p

/-- The calls `.skip(skip).limit(limit)`: a negative skip is refused by the
database, a limit of 0 is no limit, a negative limit counts as its absolute
value; a `NaN` is answered as an error. -/
def window (skip limit : Option Int) (l : List Property) : Option (List Property) :=
  match skip, limit with
  | some s, some n =>
    if s < 0 then none
    else if n = 0 then some (l.drop s.toNat)
    else some ((l.drop s.toNat).take n.natAbs)
  | _, _ => none

/-- What the listing route leaves behind. -/
structure ListResult where
  code : Nat
  message : String
  properties : List Property
  totalCount : Nat

/-- Handler of `GET /api/properties`. `before sortBy direction` is the order
of `.sort(sortOptions)`; `sortBy`, `sortOrder`, `page` and `limit` default to
`'createdAt'`, `'desc'`, `1` and `20` when absent. -/
def listProperties (parseInt : Value → Option Int) (matchOther : Obj → Property → Bool)
    (before : Value → Int → Property → Property → Bool) (params : Obj)
    (db : List Property) : ListResult :=
  let sortBy := (getKey params "sortBy").getD (.str "createdAt")
  let direction : Int :=
    match (getKey params "sortOrder").getD (.str "desc") with
    | .str o => if o == "desc" then -1 else 1
    | _ => 1
  let page := parseInt ((getKey params "page").getD (.num 1))
  let limit := parseInt ((getKey params "limit").getD (.num 20))
  let skip : Option Int :=
    match page, limit with
    | some pg, some n => some ((pg - 1) * n)
    | _, _ => none
  match listingQuery parseInt params with
  | none => { code := 500, message := "خطأ في الحصول على العقارات", properties := [],
              totalCount := 0 }
  | some query =>
    let found := db.filter (matchesQuery matchOther query)
    match window skip limit
        (found.insertionSort (fun a b => before sortBy direction a b = true)) with
    | none => { code := 500, message := "خطأ في الحصول على العقارات", properties := [],
                totalCount := 0 }
    | some properties =>
      { code := 200, message := "تم الحصول على العقارات بنجاح", properties := properties,
        totalCount := found.length }

/-! ## Strings and patterns -/

/-- The white space of JavaScript (`\s` in a pattern and what `trim` removes). -/
def isJsSpace (c : Char) : Bool :=
  [9, 10, 11, 12, 13, 32, 160, 0x1680, 0x2028, 0x2029, 0x202f, 0x205f, 0x3000, 0xfeff].contains
    c.toNat || (0x2000 ≤ c.toNat && c.toNat ≤ 0x200a)

/-- The method `trim`. -/
def jsTrim (s : List Char) : List Char :=
  ((s.dropWhile isJsSpace).reverse.dropWhile isJsSpace).reverse

/-- The call `replace(/\s+/g, '')`. -/
def removeSpaces (s : List Char) : List Char :=
  s.filter (fun c => !(isJsSpace c))

/-- The call `replace(/<[^>]*>/g, '')`, as a scan that is either outside a tag
or inside one with the characters read since its `<`. -/
def stripTagsFrom : List Char → Option (List Char) → List Char
  | [], none => []
  | [], some held => held.reverse
  | c :: cs, none => if c = '<' then stripTagsFrom cs (some ['<']) else c :: stripTagsFrom cs none
  | c :: cs, some held =>
    if c = '>' then stripTagsFrom cs none else stripTagsFrom cs (some (c :: held))

/-- The helper `sanitizeInput` of `validateRegistration`: the empty string for
a value that is not a string, else the trimmed string without its tags. -/
def sanitizeInput : Option Value → List Char
  | some (.str s) => stripTagsFrom (jsTrim s.data) none
  | _ => []

/-- The method `toLowerCase`, on the characters whose lower case is an ASCII
character (`A`-`Z` and the Kelvin sign); any other character lower-cases to
characters outside ASCII and is kept as it is. -/
def toLowerCase (s : List Char) : List Char :=
  s.map (fun c =>
    if 'A'.toNat ≤ c.toNat && c.toNat ≤ 'Z'.toNat then Char.ofNat (c.toNat + 32)
    else if c.toNat = 0x212a then 'k' else c)

/-- The property `length` of a string: its number of UTF-16 code units. -/
def utf16Length (s : List Char) : Nat :=
  (s.map (fun c => if c.toNat < 0x10000 then 1 else 2)).sum

/-- Regular expressions, as far as the patterns of the source need them. -/
inductive Rx where
  | eps : Rx
  | cls (p : Char → Bool) : Rx
  | seq (a b : Rx) : Rx
  | alt (a b : Rx) : Rx
  | opt (a : Rx) : Rx
  | star (a : Rx) : Rx
  | look (a : Rx) : Rx

/-- Repetition of a step that must consume input, at most `fuel` times. -/
def starLoop (step : List Char → (List Char → Bool) → Bool) :
    Nat → List Char → (List Char → Bool) → Bool
  | 0, s, k => k s
  | fuel + 1, s, k =>
    step s (fun rest => decide (rest.length < s.length) && starLoop step fuel rest k) || k s

/-- Backtracking match of a pattern at the head of `s`, the rest being handed
to the continuation `k`. -/
def Rx.run : Rx → List Char → (List Char → Bool) → Bool
  | .eps, s, k => k s
  | .cls p, s, k =>
    match s with
    | c :: cs => p c && k cs
    | [] => false
  | .seq a b, s, k => a.run s (fun rest => b.run rest k)
  | .alt a b, s, k => a.run s k || b.run s k
  | .opt a, s, k => a.run s k || k s
  | .star a, s, k => starLoop a.run s.length s k
  | .look a, s, k => a.run s (fun _ => true) && k s

/-- The method `test` for a pattern anchored with `^` and `$`. -/
def Rx.test (r : Rx) (s : List Char) : Bool :=
  r.run s (fun rest => rest.isEmpty)

/-- Quantifier `{n}`. -/
def Rx.times : Nat → Rx → Rx
  | 0, _ => .eps
  | n + 1, a => .seq a (Rx.times n a)

/-- Quantifier `+`. -/
def Rx.plus (a : Rx) : Rx :=
  .seq a (.star a)

/-- A literal string. -/
def Rx.lit : List Char → Rx
  | [] => .eps
  | c :: cs => .seq (.cls (fun d => d == c)) (Rx.lit cs)

/-- Character classes of the patterns. -/
def isLower (c : Char) : Bool := 'a'.toNat ≤ c.toNat && c.toNat ≤ 'z'.toNat
/-- Class `[A-Z]`. -/
def isUpper (c : Char) : Bool := 'A'.toNat ≤ c.toNat && c.toNat ≤ 'Z'.toNat
/-- Class `\d`, `[0-9]`. -/
def isDigit (c : Char) : Bool := '0'.toNat ≤ c.toNat && c.toNat ≤ '9'.toNat
/-- Class `\w`. -/
def isWord (c : Char) : Bool := isLower c || isUpper c || isDigit c || c == '_'
/-- Class `.`: any character but a line terminator. -/
def isDot (c : Char) : Bool := !([10, 13, 0x2028, 0x2029].contains c.toNat)

/-- The pattern `emailRegex` of `validateRegistration`:
`^[a-zA-Z0-9._-]+@[a-zA-Z0-9.-]+\.[a-zA-Z]{2,}$`. -/
def emailRegex : Rx :=
  .seq (Rx.plus (.cls (fun c => isLower c || isUpper c || isDigit c || c == '.' || c == '_'
    || c == '-')))
  (.seq (.cls (fun c => c == '@'))
  (.seq (Rx.plus (.cls (fun c => isLower c || isUpper c || isDigit c || c == '.' || c == '-')))
  (.seq (.cls (fun c => c == '.'))
  (.seq (Rx.times 2 (.cls (fun c => isLower c || isUpper c)))
        (.star (.cls (fun c => isLower c || isUpper c)))))))

/-- The pattern `phoneRegex` of `validateRegistration`:
`^(\+964|00964|0)?[7][0-9]{9}$`. -/
def phoneRegex : Rx :=
  .seq (.opt (.alt (Rx.lit "+964".data) (.alt (Rx.lit "00964".data) (Rx.lit "0".data))))
  (.seq (.cls (fun c => c == '7')) (Rx.times 9 (.cls isDigit)))

/-- The pattern of `userSchema.phone`: `^(\+964|0)?[0-9]{10,11}$`. -/
def schemaPhoneRegex : Rx :=
  .seq (.opt (.alt (Rx.lit "+964".data) (Rx.lit "0".data)))
  (.seq (Rx.times 10 (.cls isDigit)) (.opt (.cls isDigit)))

/-- The pattern of `userSchema.email`:
`^\w+([.-]?\w+)*@\w+([.-]?\w+)*(\.\w{2,3})+$`. -/
def schemaEmailRegex : Rx :=
  .seq (Rx.plus (.cls isWord))
  (.seq (.star (.seq (.opt (.cls (fun c => c == '.' || c == '-'))) (Rx.plus (.cls isWord))))
  (.seq (.cls (fun c => c == '@'))
  (.seq (Rx.plus (.cls isWord))
  (.seq (.star (.seq (.opt (.cls (fun c => c == '.' || c == '-'))) (Rx.plus (.cls isWord))))
        (Rx.plus (.seq (.cls (fun c => c == '.'))
          (.seq (Rx.times 2 (.cls isWord)) (.opt (.cls isWord)))))))))

/-- The pattern `passwordRegex` of `validateRegistration`:
`^(?=.*[a-z])(?=.*[A-Z])(?=.*\d).{8,}$`. -/
def passwordRegex : Rx :=
  .seq (.look (.seq (.star (.cls isDot)) (.cls isLower)))
  (.seq (.look (.seq (.star (.cls isDot)) (.cls isUpper)))
  (.seq (.look (.seq (.star (.cls isDot)) (.cls isDigit)))
  (.seq (Rx.times 8 (.cls isDot)) (.star (.cls isDot)))))

/-! ## `validateRegistration` -/

/-- Strict equality `===`: primitives by value; an object or array parsed from
a body is never identical to another one. -/
def strictEq : Value → Value → Bool
  | .null, .null => true
  | .bool a, .bool b => a == b
  | .num a, .num b => a == b
  | .str a, .str b => a == b
  | _, _ => false

/-- Outcome of a validation middleware. -/
inductive Validation where
  | rejected (code : Nat) (message : String) : Validation
  | threw : Validation
  | next (body : Obj) : Validation

/-- The read `password.length` where it is a number (`none` is `undefined`,
for which `undefined < 8` is false). -/
def lengthOf : Value → Option Int
  | .str s => some (utf16Length s.data)
  | .arr xs => some xs.length
  | .obj o =>
    match getKey o "length" with
    | some (.num n) => some n
    | _ => none
  | _ => none

/-- The test `userType && !['individual', 'agency'].includes(userType)`. -/
def userTypeRefused (userType : Option Value) : Bool :=
  truthy userType &&
    !(match userType with
      | some (.str t) => ["individual", "agency"].contains t
      | _ => false)

/-- The test `userType === 'agency'`. -/
def isAgency : Option Value → Bool
  | some (.str t) => t == "agency"
  | _ => false

/-- The checks of `validateRegistration` from the password on, with the
assignments to `req.body` at the end; name, email and phone arrive sanitized. -/
def validateCredentials (body : Obj) (sanitizedName sanitizedEmail sanitizedPhone : List Char)
    (password confirmPassword : Value) : Validation :=
  let userType := getKey body "userType"
  let agencyName := getKey body "agencyName"
  let licenseNumber := getKey body "licenseNumber"
  let tooShort : Bool :=
    match lengthOf password with
    | some n => decide (n < 8)
    | none => false
  let weak : Bool :=
    match password with
    | .str pw => !(passwordRegex.test pw.data)
    | _ => true
  if tooShort then .rejected 400 "كلمة المرور يجب أن تكون 8 أحرف على الأقل"
  else if weak && tooShort then
    .rejected 400 "كلمة المرور يجب أن تحتوي على حروف كبيرة وصغيرة وأرقام (8 أحرف على الأقل)"
  else if !(strictEq password confirmPassword) then .rejected 400 "كلمة المرور غير متطابقة"
  else if userTypeRefused userType then .rejected 400 "نوع المستخدم غير صحيح"
  else if isAgency userType &&
      (utf16Length (sanitizeInput agencyName) < 3 || utf16Length (sanitizeInput agencyName) > 200)
    then .rejected 400 "اسم المكتب يجب أن يكون بين 3 و 200 حرف"
  else if isAgency userType &&
      (utf16Length (sanitizeInput licenseNumber) < 5
        || utf16Length (sanitizeInput licenseNumber) > 50)
    then .rejected 400 "رقم الترخيص يجب أن يكون بين 5 و 50 حرف"
  else
    let body := setKey body "name" (.str (String.mk sanitizedName))
    let body := setKey body "email" (.str (String.mk sanitizedEmail))
    let body := setKey body "phone" (.str (String.mk sanitizedPhone))
    let body :=
      if isAgency userType then
        setKey (setKey body "agencyName" (.str (String.mk (sanitizeInput agencyName))))
          "licenseNumber" (.str (String.mk (sanitizeInput licenseNumber)))
      else body
    .next body

/-- The middleware `validateRegistration`. A value without the string method
the code calls on it (`toLowerCase`, `replace`) makes it throw. -/
def validateRegistration (body : Obj) : Validation :=
  let name := getKey body "name"
  let email := getKey body "email"
  let phone := getKey body "phone"
  let password := getKey body "password"
  let confirmPassword := getKey body "confirmPassword"
  if !(truthy name) || !(truthy email) || !(truthy phone) || !(truthy password)
      || !(truthy confirmPassword) then
    .rejected 400 "جميع الحقول مطلوبة"
  else
    let sanitizedName := sanitizeInput name
    if utf16Length sanitizedName < 2 || utf16Length sanitizedName > 100 then
      .rejected 400 "الاسم يجب أن يكون بين 2 و 100 حرف"
    else
      match email with
      | some (.str e) =>
        let sanitizedEmail := jsTrim (toLowerCase e.data)
        if !(emailRegex.test sanitizedEmail) || utf16Length sanitizedEmail > 255 then
          .rejected 400 "البريد الإلكتروني غير صحيح"
        else
          match phone with
          | some (.str ph) =>
            let sanitizedPhone := removeSpaces ph.data
            if !(phoneRegex.test sanitizedPhone) then
              .rejected 400 "رقم الهاتف العراقي غير صحيح (يجب أن يبدأ بـ 07 أو +964)"
            else
              validateCredentials body sanitizedName sanitizedEmail sanitizedPhone
                (password.getD .null) (confirmPassword.getD .null)
          | _ => .threw
      | _ => .threw

/-! ## `POST /api/auth/register` and `POST /api/auth/login` -/

/-- What an authentication route leaves behind: status code and message, the
user and the token of the response, the user collection after the call and
the key `jwt.sign` was called with (if it was called). -/
structure AuthRouteResult where
  code : Nat
  message : String
  user : Option UserView
  token : Option String
  users : List User
  signedWith : Option String

/-- Validation of a new user document by `userSchema`: the setters `trim` and
`lowercase`, the length bounds, the two patterns and the `userType` enum. -/
def userSchemaValid (name email phone password userType : String) : Bool :=
  decide (2 ≤ utf16Length (jsTrim name.data)) && decide (utf16Length (jsTrim name.data) ≤ 100) &&
  schemaEmailRegex.test (jsTrim (toLowerCase email.data)) &&
  schemaPhoneRegex.test (jsTrim phone.data) &&
  decide (6 ≤ utf16Length password.data) &&
  userTypeEnum.contains userType

/-- The expression `userType || 'individual'` as the string the schema stores;
`none` for a truthy value that is not a string, which the schema refuses. -/
def chosenUserType : Option Value → Option String
  | some (.str t) => if t == "" then some "individual" else some t
  | some v => if truthy (some v) then none else some "individual"
  | none => some "individual"

/-- A terminal error response of an authentication route. -/
def authFailure (code : Nat) (message : String) (users : List User) : AuthRouteResult :=
  { code := code, message := message, user := none, token := none, users := users,
    signedWith := none }

/-- Handler of `POST /api/auth/register` (after `validateRegistration`, which
leaves strings in `name`, `email` and `phone`; for other values the handler
fails). `hash` is `bcrypt.hash(_, 12)`, `jwtSign` is `jwt.sign` with the
configured expiry. -/
def register (hash : String → String) (jwtSign : Obj → String → String) (env : Env)
    (newId tNow : Nat) (body : Obj) (users : List User) : AuthRouteResult :=
  match getKey body "name", getKey body "email", getKey body "phone",
        getKey body "password" with
  | some (.str name), some (.str email), some (.str phone), some (.str password) =>
    if (users.find? (fun u => u.email == email)).isSome then
      authFailure 400 "المستخدم موجود بالفعل" users
    else
      let hashedPassword := hash password
      match chosenUserType (getKey body "userType") with
      | none => authFailure 500 "خطأ في إنشاء الحساب" users
      | some userType =>
        if userSchemaValid name email phone hashedPassword userType then
          let agencyInfo : Obj :=
            if userType == "agency" then
              [("agencyInfo", .obj [("agencyName", (getKey body "agencyName").getD .null),
                                    ("licenseNumber", (getKey body "licenseNumber").getD .null)])]
            else []
          let savedUser : User :=
            { id := newId, name := String.mk (jsTrim name.data),
              email := String.mk (jsTrim (toLowerCase email.data)),
              phone := String.mk (jsTrim phone.data), password := hashedPassword,
              userType := userType, isActive := true, isVerified := false, lastLogin := none,
              fields := agencyInfo ++ [("createdAt", .date tNow), ("updatedAt", .date tNow)] }
          { code := 201, message := "تم إنشاء الحساب بنجاح",
            user := some (toResponse savedUser),
            token := some (jwtSign
              [("userId", .oid savedUser.id), ("email", .str savedUser.email),
               ("userType", .str savedUser.userType)] (secretInUse env)),
            users := users ++ [savedUser], signedWith := some (secretInUse env) }
        else authFailure 500 "خطأ في إنشاء الحساب" users
  | _, _, _, _ => authFailure 500 "خطأ في إنشاء الحساب" users

/-- Handler of `POST /api/auth/login` (after `validateLogin`). `compare` is
`bcrypt.compare`, which throws on a password that is not a string, as the
lookup does on an email that is not one. -/
def login (compare : String → String → Bool) (jwtSign : Obj → String → String) (env : Env)
    (tNow : Nat) (body : Obj) (users : List User) : AuthRouteResult :=
  match getKey body "email" with
  | some (.str email) =>
    match users.find? (fun u => u.email == email) with
    | none => authFailure 401 "البريد الإلكتروني أو كلمة المرور غير صحيحة" users
    | some user =>
      match getKey body "password" with
      | some (.str password) =>
        if !(compare password user.password) then
          authFailure 401 "البريد الإلكتروني أو كلمة المرور غير صحيحة" users
        else if !user.isActive then authFailure 401 "الحساب غير نشط" users
        else
          let user := { user with lastLogin := some tNow }
          { code := 200, message := "تم تسجيل الدخول بنجاح",
            user := some (toResponse
              { user with fields := spreadWith user.fields [("updatedAt", .date tNow)] }),
            token := some (jwtSign
              [("userId", .oid user.id), ("email", .str user.email),
               ("userType", .str user.userType)] (secretInUse env)),
            users := saveUser tNow user users, signedWith := some (secretInUse env) }
      | _ => authFailure 500 "خطأ في تسجيل الدخول" users
  | _ => authFailure 500 "خطأ في تسجيل الدخول" users

/-! ## The compact token -/

/-- The alphabet of base64url. -/
def base64urlAlphabet : List Char :=
  "ABCDEFGHIJKLMNOPQRSTUVWXYZabcdefghijklmnopqrstuvwxyz0123456789-_".data

/-- One base64url digit. -/
def b64 (n : Nat) : Char :=
  base64urlAlphabet.getD n 'A'

/-- Encoding base64url without padding. -/
def base64url : List Nat → List Char
  | a :: b :: c :: rest =>
    b64 (a / 4) :: b64 (a % 4 * 16 + b / 16) :: b64 (b % 16 * 4 + c / 64) :: b64 (c % 64)
      :: base64url rest
  | [a, b] => [b64 (a / 4), b64 (a % 4 * 16 + b / 16), b64 (b % 16 * 4)]
  | [a] => [b64 (a / 4), b64 (a % 4 * 16)]
  | [] => []

/-- The UTF-8 bytes of a character. -/
def utf8Bytes (c : Char) : List Nat :=
  let n := c.toNat
  if n < 0x80 then [n]
  else if n < 0x800 then [0xc0 + n / 64, 0x80 + n % 64]
  else if n < 0x10000 then [0xe0 + n / 4096, 0x80 + n / 64 % 64, 0x80 + n % 64]
  else [0xf0 + n / 262144, 0x80 + n / 4096 % 64, 0x80 + n / 64 % 64, 0x80 + n % 64]

/-- The 24 hexadecimal digits of an ObjectId. -/
def oidHex (id : Nat) : List Char :=
  (List.range 24).map (fun i => "0123456789abcdef".data.getD (id / 16 ^ (23 - i) % 16) '0')

/-- The JSON text of the payload `jwt.sign` serializes for the claims
`userId`, `email`, `userType`, to which it adds `iat` and `exp`. -/
def tokenPayload (userId : Nat) (email userType : String) (iat exp : Nat) : List Char :=
  "\x7b\"userId\":\"".data ++ oidHex userId ++ "\",\"email\":\"".data ++ email.data
    ++ "\",\"userType\":\"".data ++ userType.data ++ "\",\"iat\":".data
    ++ Nat.toDigits 10 iat ++ ",\"exp\":".data ++ Nat.toDigits 10 exp ++ "\x7d".data

/-- The compact serialization `jwt.sign` produces with its default algorithm:
base64url of the header, of the payload and of the 32 bytes of the
HMAC-SHA256 `mac`, joined by dots. -/
def compactJwt (mac : List Char → String → List Nat) (iat exp : Nat) (payload : Obj)
    (secret : String) : String :=
  let userId : Nat :=
    match getKey payload "userId" with
    | some (.oid n) => n
    | _ => 0
  let text (k : String) : String :=
    match getKey payload k with
    | some (.str t) => t
    | _ => ""
  let signingInput : List Char :=
    base64url ("\x7b\"alg\":\"HS256\",\"typ\":\"JWT\"\x7d".data.flatMap utf8Bytes) ++ ['.']
      ++ base64url ((tokenPayload userId (text "email") (text "userType") iat exp).flatMap
        utf8Bytes)
  String.mk (signingInput ++ ['.'] ++ base64url (mac signingInput secret))

/-! ## Predicates on stores and payloads -/

/-- No key of the object begins with `$` (top level). -/
def operatorFree (o : Obj) : Prop :=
  ∀ kv ∈ o, isOperatorKey kv.1 = false

/-- Every stored property with status `'approved'` has its publish flag set. -/
def approvedArePublished (db : List Property) : Prop :=
  ∀ p ∈ db, p.status = "approved" → p.isPublished = true

/-- The owner updates of a sequence of operations carry no `$` key. -/
def updatesOperatorFree : List Op → Prop
  | [] => True
  | .adminStatus _ _ _ :: ops => updatesOperatorFree ops
  | .ownerUpdate payload _ :: ops => operatorFree payload ∧ updatesOperatorFree ops

/-! ## Sample data -/

/-- An approved, published listing of user 7. -/
def publishedListing : Property :=
  { id := 1, owner := 7, status := "approved", isPublished := true, publishedAt := some 100,
    createdAt := 50, updatedAt := 100, fields := [] }

/-- The owner of the listings used below. -/
def ownerSeven : Principal :=
  { userId := 7, email := "a@x.com", userType := "individual" }

/-- Status and publish flag of the stored property `id`. -/
def statusAndFlag (id : Nat) (db : List Property) : Option (String × Bool) :=
  (findById id db).map (fun q => (q.status, q.isPublished))

/-- A listing of user 7 that awaits moderation. -/
def pendingListing : Property :=
  { id := 1, owner := 7, status := "pending", isPublished := false, publishedAt := none,
    createdAt := 50, updatedAt := 50, fields := [] }

/-- A verifier that rejects every token as invalid. -/
def rejectingVerify : String → String → VerifyResult :=
  fun _ _ => .jsonWebTokenError

/-- An ObjectId cast that accepts the number it is given. -/
def numericCast : Value → Option Nat
  | .num n => some n.toNat
  | _ => none

/-- An environment with a configured secret. -/
def configuredEnv : Env :=
  { nodeEnv := some "production", jwtSecret := some "k3y-of-the-deployment" }

/-- An active individual user with id 7. -/
def activeUser : User :=
  { id := 7, name := "Ali", email := "a@x.com", phone := "07701234567",
    password := "$2a$12$storedhash", userType := "individual", isActive := true,
    isVerified := false, lastLogin := none, fields := [] }

/-- A deactivated user with id 8. -/
def disabledUser : User :=
  { id := 8, name := "Badr", email := "b@x.com", phone := "07801234567",
    password := "$2a$12$otherhash", userType := "individual", isActive := false,
    isVerified := false, lastLogin := none, fields := [] }

/-- A principal that owns none of the sample listings. -/
def intruder : Principal :=
  { userId := 8, email := "b@x.com", userType := "admin" }

/-- A verifier that decodes every token to a payload naming the given user. -/
def decodingVerify (userId : Value) : String → String → VerifyResult :=
  fun _ _ => .decoded (.obj [("userId", userId), ("userType", .str "admin")])

/-- A verifier for which the token `forged` is valid under the well-known
fallback key and names user 7; nothing else verifies. -/
def placeholderVerify : String → String → VerifyResult :=
  fun token secret =>
    if secret == placeholderSecret && token == "forged" then
      .decoded (.obj [("userId", .num 7)])
    else .jsonWebTokenError

/-- A production environment without `JWT_SECRET`. -/
def productionNoSecret : Env :=
  { nodeEnv := some "production", jwtSecret := none }

/-- A stand-in for `bcrypt.hash`. -/
def sampleHash : String → String :=
  fun pw => "$2a$12$" ++ pw

/-- A schema validation that rejects a `price` that is not a number, as the
Number cast of `propertySchema.price` does for the string `abc`. -/
def priceIsNumber : Obj → Bool :=
  fun o =>
    match getKey o "price" with
    | none => true
    | some (.num _) => true
    | some _ => false

/-- A stored user whose `updatedAt` is 5. -/
def datedUser : User :=
  { id := 9, name := "Dana", email := "d@x.com", phone := "07901234567",
    password := "$2a$12$datedhash", userType := "agency", isActive := true,
    isVerified := true, lastLogin := some 3, fields := [("updatedAt", .date 5)] }

/-- A stand-in for `parseInt` on the values used below. -/
def sampleParseInt : Value → Option Int
  | .num n => some n
  | .str "2" => some 2
  | .str "10" => some 10
  | _ => none

/-- An order that keeps the stored order. -/
def storedOrder : Value → Int → Property → Property → Bool :=
  fun _ _ _ _ => true

/-- A registration body with the given password and phone number. -/
def registrationBody (password phone : String) : Obj :=
  [("name", .str "Ali Hassan"), ("email", .str "Ali@X.com"), ("phone", .str phone),
   ("password", .str password), ("confirmPassword", .str password)]

/-- The body a validation hands on, or the empty object. -/
def validatedBody : Validation → Obj
  | .next body => body
  | _ => []

/-- Whether a validation called `next`. -/
def passed : Validation → Bool
  | .next _ => true
  | _ => false

/-- A stand-in for HMAC-SHA256: 32 zero bytes. -/
def zeroMac : List Char → String → List Nat :=
  fun _ _ => List.replicate 32 0

/-- A stand-in for `bcrypt.compare` that accepts the password `Abcdefg1`. -/
def sampleCompare : String → String → Bool :=
  fun password _ => password == "Abcdefg1"

/-- An email of 245 characters: 240 times `a`, then `@x.io`. -/
def longEmail : String :=
  String.mk (List.replicate 240 'a' ++ "@x.io".data)

/-- An active user with id 11 whose email is `longEmail`. -/
def longEmailUser : User :=
  { id := 11, name := "Long", email := longEmail, phone := "07701234567",
    password := "$2a$12$longhash", userType := "individual", isActive := true,
    isVerified := false, lastLogin := none, fields := [] }

/-- A reading of the update operators other than `$set` that refuses them
all; it stands in the evaluations whose updates carry no such operator, where
it is not consulted. -/
def noOperators {α : Type} : Obj → Option (α → α) :=
  fun _ => none

/-- A reading of the update operators other than `$set` that knows `$inc` of
the path `price` by an integer, as MongoDB applies it to a numeric or absent
`price`, and refuses every other operator document. -/
def incPrice : Obj → Option (Property → Property) :=
  fun update =>
    match otherOperators update with
    | [("$inc", .obj [("price", .num d)])] =>
      some (fun p =>
        match getKey p.fields "price" with
        | some (.num n) => { p with fields := spreadWith p.fields [("price", .num (n + d))] }
        | _ => { p with fields := spreadWith p.fields [("price", .num d)] })
    | _ => none

/-! ## Lemmas on objects -/

theorem getKey_nil (k : String) : getKey [] k = none := rfl

theorem getKey_cons (kv : String × Value) (o : Obj) (k : String) :
    getKey (kv :: o) k = if kv.1 = k then some kv.2 else getKey o k := by
  unfold getKey
  by_cases h : kv.1 = k
  · simp [List.find?_cons, h]
  · simp [List.find?_cons, h]

theorem getKey_append (a b : Obj) (k : String) :
    getKey (a ++ b) k = match getKey a k with
      | some v => some v
      | none => getKey b k := by
  induction a with
  | nil => simp [getKey_nil]
  | cons kv a ih =>
    rw [List.cons_append, getKey_cons, getKey_cons]
    by_cases h : kv.1 = k
    · simp [h]
    · simp [h, ih]

theorem getKey_omitKeys_of_mem (ks : List String) (o : Obj) (k : String) (h : k ∈ ks) :
    getKey (omitKeys ks o) k = none := by
  induction o with
  | nil => rfl
  | cons kv o ih =>
    unfold omitKeys at ih ⊢
    rw [List.filter_cons]
    by_cases hk : ks.contains kv.1 = true
    · simp only [hk, Bool.not_true, Bool.false_eq_true, if_false]
      exact ih
    · have hne : kv.1 ≠ k := by
        intro e
        apply hk
        rw [e]
        simpa using h
      simp only [hk, Bool.not_false, if_true]
      rw [getKey_cons, if_neg hne]
      exact ih

theorem getKey_omitKeys_of_not_mem (ks : List String) (o : Obj) (k : String) (h : k ∉ ks) :
    getKey (omitKeys ks o) k = getKey o k := by
  induction o with
  | nil => rfl
  | cons kv o ih =>
    unfold omitKeys at ih ⊢
    rw [List.filter_cons]
    by_cases hk : ks.contains kv.1 = true
    · have hne : kv.1 ≠ k := by
        intro e
        apply h
        rw [← e]
        simpa using hk
      simp only [hk, Bool.not_true, Bool.false_eq_true, if_false]
      rw [getKey_cons, if_neg hne]
      exact ih
    · simp only [hk, Bool.not_false, if_true]
      rw [getKey_cons, getKey_cons, ih]

theorem getKey_spreadWith_of_mem (o props : Obj) (k : String)
    (h : k ∈ props.map (fun kv => kv.1)) :
    getKey (spreadWith o props) k = getKey props k := by
  unfold spreadWith
  rw [getKey_append, getKey_omitKeys_of_mem _ _ _ h]

theorem getKey_spreadWith_of_not_mem (o props : Obj) (k : String)
    (h : k ∉ props.map (fun kv => kv.1)) :
    getKey (spreadWith o props) k = getKey o k := by
  unfold spreadWith
  rw [getKey_append, getKey_omitKeys_of_not_mem _ _ _ h]
  cases hg : getKey o k with
  | some v => rfl
  | none =>
    simp only
    induction props with
    | nil => rfl
    | cons kv props ih =>
      rw [getKey_cons]
      have h1 : kv.1 ≠ k := by
        intro e
        apply h
        simp [e]
      rw [if_neg h1]
      apply ih
      intro hm
      apply h
      simp only [List.map_cons, List.mem_cons]
      exact Or.inr hm

/-! ## Creation -/

/-- The object the creation handler hands to `new Property(...)`. -/
theorem newProperty_creation (validOther : Obj → Bool) (newId tCreated tUpdated : Nat)
    (user : Principal) (body : Obj) (p : Property)
    (h : newProperty validOther newId
      (spreadWith (omitKeys ["status", "isPublished", "publishedAt"] body)
        [("owner", .oid user.userId), ("status", .str "pending"), ("isPublished", .bool false),
         ("createdAt", .date tCreated), ("updatedAt", .date tUpdated)]) = some p) :
    p.id = newId ∧ p.owner = user.userId ∧ p.status = "pending" ∧ p.isPublished = false ∧
      p.publishedAt = none := by
  unfold newProperty at h
  rw [getKey_spreadWith_of_mem _ _ "owner" (by simp),
    getKey_spreadWith_of_mem _ _ "status" (by simp),
    getKey_spreadWith_of_mem _ _ "isPublished" (by simp),
    getKey_spreadWith_of_mem _ _ "createdAt" (by simp),
    getKey_spreadWith_of_mem _ _ "updatedAt" (by simp),
    getKey_spreadWith_of_not_mem _ _ "publishedAt" (by simp),
    getKey_omitKeys_of_mem _ _ "publishedAt" (by simp)] at h
  simp [getKey_cons, getKey_nil, castOid, castStatus, castBool, castDate, statusEnum] at h
  obtain ⟨_, rfl⟩ := h
  simp

/-- Hydration of the creation handler's object succeeds when the remaining
paths validate. -/
theorem newProperty_accepts (validOther : Obj → Bool) (newId tCreated tUpdated : Nat)
    (user : Principal) (body : Obj) (hv : ∀ o, validOther o = true) :
    ∃ p, newProperty validOther newId
      (spreadWith (omitKeys ["status", "isPublished", "publishedAt"] body)
        [("owner", .oid user.userId), ("status", .str "pending"), ("isPublished", .bool false),
         ("createdAt", .date tCreated), ("updatedAt", .date tUpdated)]) = some p := by
  unfold newProperty
  rw [getKey_spreadWith_of_mem _ _ "owner" (by simp),
    getKey_spreadWith_of_mem _ _ "status" (by simp),
    getKey_spreadWith_of_mem _ _ "isPublished" (by simp),
    getKey_spreadWith_of_mem _ _ "createdAt" (by simp),
    getKey_spreadWith_of_mem _ _ "updatedAt" (by simp),
    getKey_spreadWith_of_not_mem _ _ "publishedAt" (by simp),
    getKey_omitKeys_of_mem _ _ "publishedAt" (by simp)]
  simp [hv, getKey_cons, getKey_nil, castOid, castStatus, castBool, castDate, statusEnum]

/-- The creation handler: what it stores when it creates, and that it stores
nothing otherwise. -/
theorem create_pending (validOther : Obj → Bool)
    (newId tCreated tUpdated : Nat) (user : Principal) (body : Obj) (db : List Property) :
    (∀ p, (createProperty validOther newId tCreated tUpdated user body db).property = some p →
      p.status = "pending" ∧ p.isPublished = false ∧
      (createProperty validOther newId tCreated tUpdated user body db).db = db ++ [p]) ∧
    ((createProperty validOther newId tCreated tUpdated user body db).property = none →
      (createProperty validOther newId tCreated tUpdated user body db).db = db) ∧
    ((createProperty validOther newId tCreated tUpdated user body db).property.isSome = true →
      (createProperty validOther newId tCreated tUpdated user body db).code = 201) := by
  unfold createProperty
  cases hn : newProperty validOther newId
      (spreadWith (omitKeys ["status", "isPublished", "publishedAt"] body)
        [("owner", .oid user.userId), ("status", .str "pending"),
         ("isPublished", .bool false), ("createdAt", .date tCreated),
         ("updatedAt", .date tUpdated)]) with
  | none => simp [hn]
  | some q =>
    have hq := newProperty_creation validOther newId tCreated tUpdated user body q hn
    simp only [hn]
    refine ⟨?_, ?_, ?_⟩
    · intro p hp
      simp only [Option.some.injEq] at hp
      subst hp
      exact ⟨hq.2.2.1, hq.2.2.2.1, rfl⟩
    · intro hp
      simp at hp
    · intro _
      trivial

/-- C1: for every principal, request body and store, a property that
`POST /api/properties` creates is stored with status `'pending'` and
`isPublished = false`, whatever the body carries; when nothing is created the
store is unchanged, and the creation does take place whenever schema
validation accepts the remaining paths. -/
theorem create_forces_pending_unpublished (validOther : Obj → Bool)
    (newId tCreated tUpdated : Nat) (user : Principal) (body : Obj) (db : List Property) :
    (∀ p, (createProperty validOther newId tCreated tUpdated user body db).property = some p →
      p.status = "pending" ∧ p.isPublished = false ∧
      (createProperty validOther newId tCreated tUpdated user body db).code = 201 ∧
      (createProperty validOther newId tCreated tUpdated user body db).db = db ++ [p]) ∧
    ((createProperty validOther newId tCreated tUpdated user body db).property = none →
      (createProperty validOther newId tCreated tUpdated user body db).db = db) ∧
    ((∀ o, validOther o = true) →
      ∃ p, (createProperty validOther newId tCreated tUpdated user body db).property = some p) := by
  obtain ⟨h1, h2, h3⟩ := create_pending validOther newId tCreated tUpdated user body db
  refine ⟨?_, h2, ?_⟩
  · intro p hp
    obtain ⟨a, b, c⟩ := h1 p hp
    exact ⟨a, b, h3 (by rw [hp]; rfl), c⟩
  · intro hv
    obtain ⟨q, hq⟩ := newProperty_accepts validOther newId tCreated tUpdated user body hv
    exact ⟨q, by simp [createProperty, hq]⟩

/-! ## Moderation -/

theorem findById_saveProperty (p q : Property) (db : List Property)
    (h : findById p.id db = some q) : findById p.id (saveProperty p db) = some p := by
  induction db with
  | nil => simp [findById] at h
  | cons r rs ih =>
    unfold findById at h ih ⊢
    unfold saveProperty
    by_cases hr : (r.id == p.id) = true
    · simp [hr, List.find?_cons]
    · simp only [hr, if_false, Bool.false_eq_true]
      rw [List.find?_cons] at h ⊢
      simp only [hr] at h ⊢
      exact ih h

theorem findById_id (id : Nat) (db : List Property) (p : Property)
    (h : findById id db = some p) : p.id = id := by
  unfold findById at h
  have := List.find?_some h
  simpa using this

theorem legalTarget_str (s : String)
    (hs : s = "pending" ∨ s = "approved" ∨ s = "rejected") :
    legalTarget (some (.str s)) = some s := by
  rcases hs with rfl | rfl | rfl <;> rfl

theorem moderate_id (tU tP : Nat) (s : String) (p : Property) :
    (moderate tU tP s p).id = p.id := by
  unfold moderate
  split
  · rfl
  · split <;> rfl

/-- The admin status handler on an existing property with a legal target. -/
theorem setPropertyStatus_found (tU tP id : Nat) (body : Obj) (db : List Property)
    (s : String) (p : Property)
    (hs : s = "pending" ∨ s = "approved" ∨ s = "rejected")
    (hb : getKey body "status" = some (.str s)) (hp : findById id db = some p) :
    (setPropertyStatus tU tP id body db).code = 200 ∧
    (setPropertyStatus tU tP id body db).property = some (moderate tU tP s p) ∧
    findById id (setPropertyStatus tU tP id body db).db = some (moderate tU tP s p) := by
  unfold setPropertyStatus
  rw [hb, legalTarget_str s hs]
  simp only [hp, true_and]
  have hid : (moderate tU tP s p).id = id := by
    rw [moderate_id, findById_id id db p hp]
  have := findById_saveProperty (moderate tU tP s p) p db (by rw [hid]; exact hp)
  rw [hid] at this
  exact this

/-- C2: for every existing property in any prior state, the admin status
operation called with `'approved'` succeeds and leaves the stored property
with status `'approved'`, `isPublished = true` and `publishedAt` equal to the
clock reading of the handler. -/
theorem approve_publishes (tUpdated tPublished id : Nat) (body : Obj) (db : List Property)
    (p : Property) (hb : getKey body "status" = some (.str "approved"))
    (hp : findById id db = some p) :
    (setPropertyStatus tUpdated tPublished id body db).code = 200 ∧
    ∃ q, findById id (setPropertyStatus tUpdated tPublished id body db).db = some q ∧
      q.status = "approved" ∧ q.isPublished = true ∧ q.publishedAt = some tPublished := by
  obtain ⟨h1, _, h3⟩ :=
    setPropertyStatus_found tUpdated tPublished id body db "approved" p (by simp) hb hp
  exact ⟨h1, _, h3, by simp [moderate], by simp [moderate], by simp [moderate]⟩

/-- C3: for every existing property in any prior state, the admin status
operation called with `'rejected'` succeeds and leaves the stored property
with status `'rejected'`, `isPublished = false` and `publishedAt` as it was
before the call. -/
theorem reject_unpublishes (tUpdated tPublished id : Nat) (body : Obj) (db : List Property)
    (p : Property) (hb : getKey body "status" = some (.str "rejected"))
    (hp : findById id db = some p) :
    (setPropertyStatus tUpdated tPublished id body db).code = 200 ∧
    ∃ q, findById id (setPropertyStatus tUpdated tPublished id body db).db = some q ∧
      q.status = "rejected" ∧ q.isPublished = false ∧ q.publishedAt = p.publishedAt := by
  obtain ⟨h1, _, h3⟩ :=
    setPropertyStatus_found tUpdated tPublished id body db "rejected" p (by simp) hb hp
  exact ⟨h1, _, h3, by simp [moderate], by simp [moderate], by simp [moderate]⟩

/-- C4 (evaluation of the code): the admin status operation called with
`'pending'` on an approved, published property answers 200 and stores status
`'pending'` with `isPublished` still `true`. -/
theorem pending_keeps_publish_flag :
    (setPropertyStatus 200 201 1 [("status", .str "pending")] [publishedListing]).code = 200 ∧
    statusAndFlag 1
      (setPropertyStatus 200 201 1 [("status", .str "pending")] [publishedListing]).db
      = some ("pending", true) := by
  decide

/-- C5 (evaluation of the code): creation, approval, then a status request
back to `'pending'` leaves the property stored with `isPublished = true` and a
status that is not `'approved'`. -/
theorem published_without_approved :
    statusAndFlag 1
      (lifeCycle (fun _ => true) noOperators 1 10 10 ownerSeven [("title", .str "House")]
        [.adminStatus [("status", .str "approved")] 20 20,
         .adminStatus [("status", .str "pending")] 30 30])
      = some ("pending", true) := by
  decide

/-- C6 (evaluation of the code): creation, approval, then an owner update
whose payload is `{"$set": {"isPublished": false}}` leaves the property
stored with status `'approved'` and `isPublished = false`; the sanitizer has
run before the body parser and has not seen the payload. -/
theorem approved_without_published :
    statusAndFlag 1
      (lifeCycle (fun _ => true) noOperators 1 10 10 ownerSeven [("title", .str "House")]
        [.adminStatus [("status", .str "approved")] 20 20,
         .ownerUpdate [("$set", .obj [("isPublished", .bool false)])] 30])
      = some ("approved", false) := by
  decide

/-- A requested status other than the three legal strings fails the
`includes` test. -/
theorem legalTarget_none (v : Option Value)
    (h1 : v ≠ some (.str "pending")) (h2 : v ≠ some (.str "approved"))
    (h3 : v ≠ some (.str "rejected")) : legalTarget v = none := by
  unfold legalTarget
  split
  · rename_i s
    have hp : s ≠ "pending" := fun e => h1 (by rw [e])
    have ha : s ≠ "approved" := fun e => h2 (by rw [e])
    have hr : s ≠ "rejected" := fun e => h3 (by rw [e])
    simp [hp, ha, hr]
  · rfl

/-- C7: for every requested status value that is not exactly one of
`'pending'`, `'approved'`, `'rejected'` (a missing value included), the admin
status operation answers 400 with the invalid-status message and leaves the
property store unchanged. -/
theorem illegal_status_rejected (tUpdated tPublished id : Nat) (body : Obj)
    (db : List Property)
    (h1 : getKey body "status" ≠ some (.str "pending"))
    (h2 : getKey body "status" ≠ some (.str "approved"))
    (h3 : getKey body "status" ≠ some (.str "rejected")) :
    (setPropertyStatus tUpdated tPublished id body db).code = 400 ∧
    (setPropertyStatus tUpdated tPublished id body db).message = "حالة غير صحيحة" ∧
    (setPropertyStatus tUpdated tPublished id body db).property = none ∧
    (setPropertyStatus tUpdated tPublished id body db).db = db := by
  unfold setPropertyStatus
  rw [legalTarget_none _ h1 h2 h3]
  simp

/-- Once `:propertyId` is cast: a legal target status and an ObjectId that no
stored property has are answered with 404, and the store is left as it is. -/
theorem setPropertyStatus_missing (tUpdated tPublished id : Nat) (body : Obj)
    (db : List Property) (s : String)
    (hs : s = "pending" ∨ s = "approved" ∨ s = "rejected")
    (hb : getKey body "status" = some (.str s))
    (hid : ∀ p ∈ db, p.id ≠ id) :
    (setPropertyStatus tUpdated tPublished id body db).code = 404 ∧
    (setPropertyStatus tUpdated tPublished id body db).message = "العقار غير موجود" ∧
    (setPropertyStatus tUpdated tPublished id body db).property = none ∧
    (setPropertyStatus tUpdated tPublished id body db).db = db := by
  have hf : findById id db = none := by
    unfold findById
    rw [List.find?_eq_none]
    intro p hp
    simpa using hid p hp
  unfold setPropertyStatus
  rw [hb, legalTarget_str s hs]
  simp [hf]

/-- C8 (the claim as stated fails): the path parameter `abc` is the id of no
stored property, the target status `approved` is legal, and the admin status
operation answers 500, not 404: `Property.findById` throws a cast error, which
the catch block answers. -/
theorem malformed_property_id_answers_500 :
    (∀ p ∈ [publishedListing], castOid (.str "abc") ≠ some p.id) ∧
    legalTarget (getKey [("status", Value.str "approved")] "status") = some "approved" ∧
    (setPropertyStatusRoute castOid 200 201 "abc" [("status", .str "approved")]
      [publishedListing]).code = 500 ∧
    (setPropertyStatusRoute castOid 200 201 "abc" [("status", .str "approved")]
      [publishedListing]).message = "خطأ في تحديث حالة العقار" := by
  decide

/-- C8 (amended): for every legal target status, the admin status operation
answers 404 when `:propertyId` casts to an ObjectId that no stored property
has, and 500 when `:propertyId` does not cast to an ObjectId; in both cases
the response carries no property and the property store is unchanged. -/
theorem unknown_property_not_found (castId : Value → Option Nat)
    (tUpdated tPublished : Nat) (propertyId : String) (body : Obj)
    (db : List Property) (s : String)
    (hs : s = "pending" ∨ s = "approved" ∨ s = "rejected")
    (hb : getKey body "status" = some (.str s)) :
    (∀ id, castId (.str propertyId) = some id → (∀ p ∈ db, p.id ≠ id) →
      (setPropertyStatusRoute castId tUpdated tPublished propertyId body db).code = 404 ∧
      (setPropertyStatusRoute castId tUpdated tPublished propertyId body db).message
        = "العقار غير موجود" ∧
      (setPropertyStatusRoute castId tUpdated tPublished propertyId body db).property = none ∧
      (setPropertyStatusRoute castId tUpdated tPublished propertyId body db).db = db) ∧
    (castId (.str propertyId) = none →
      (setPropertyStatusRoute castId tUpdated tPublished propertyId body db).code = 500 ∧
      (setPropertyStatusRoute castId tUpdated tPublished propertyId body db).message
        = "خطأ في تحديث حالة العقار" ∧
      (setPropertyStatusRoute castId tUpdated tPublished propertyId body db).property = none ∧
      (setPropertyStatusRoute castId tUpdated tPublished propertyId body db).db = db) := by
  constructor
  · intro id hc hid
    have h := setPropertyStatus_missing tUpdated tPublished id body db s hs hb hid
    unfold setPropertyStatusRoute
    rw [hb, legalTarget_str s hs]
    simp only [hc]
    exact h
  · intro hc
    unfold setPropertyStatusRoute
    rw [hb, legalTarget_str s hs]
    simp only [hc, and_self]

/-! ## Owner updates without operators -/

theorem getKey_eq_none_of_forall (o : Obj) (k : String) (h : ∀ kv ∈ o, kv.1 ≠ k) :
    getKey o k = none := by
  induction o with
  | nil => rfl
  | cons kv o ih =>
    rw [getKey_cons, if_neg (h kv (by simp))]
    exact ih (fun x hx => h x (by simp [hx]))

theorem castUpdate_of_operatorFree (u : Obj) (h : operatorFree u) : castUpdate u = some u := by
  have hset : getKey u "$set" = none := by
    apply getKey_eq_none_of_forall
    intro kv hkv e
    have := h kv hkv
    rw [e] at this
    exact absurd this (by decide)
  have hplain : u.filter (fun kv => !(isOperatorKey kv.1)) = u := by
    rw [List.filter_eq_self]
    intro kv hkv
    simp [h kv hkv]
  unfold castUpdate
  simp only [hset, hplain]

theorem operatorEffect_of_operatorFree {α : Type} (operators : Obj → Option (α → α))
    (u : Obj) (h : operatorFree u) : operatorEffect operators u = some id := by
  have hops : otherOperators u = [] := by
    unfold otherOperators
    rw [List.filter_eq_nil_iff]
    intro kv hkv
    simp [h kv hkv]
  unfold operatorEffect
  rw [hops]
  rfl

theorem operatorFree_updateData (body : Obj) (t : Nat) (h : operatorFree body) :
    operatorFree (spreadWith (omitKeys ["status", "isPublished", "publishedAt", "owner"] body)
      [("updatedAt", .date t)]) := by
  intro kv hkv
  unfold spreadWith omitKeys at hkv
  rw [List.mem_append] at hkv
  rcases hkv with hkv | hkv
  · exact h kv (List.mem_of_mem_filter (List.mem_of_mem_filter hkv))
  · simp only [List.mem_singleton] at hkv
    subst hkv
    rfl

/-- The update document of the owner handler names none of the protected
paths at top level. -/
theorem updateData_protected (body : Obj) (t : Nat) (k : String)
    (hk : k = "status" ∨ k = "isPublished" ∨ k = "publishedAt" ∨ k = "owner") :
    getKey (spreadWith (omitKeys ["status", "isPublished", "publishedAt", "owner"] body)
      [("updatedAt", .date t)]) k = none := by
  rw [getKey_spreadWith_of_not_mem _ _ k (by rcases hk with rfl | rfl | rfl | rfl <;> simp)]
  exact getKey_omitKeys_of_mem _ _ k (by rcases hk with rfl | rfl | rfl | rfl <;> simp)

theorem castSets_protected (validOther : Obj → Bool) (sets : Obj) (s : Sets)
    (h : castSets validOther sets = some s)
    (ho : getKey sets "owner" = none) (hs : getKey sets "status" = none)
    (hi : getKey sets "isPublished" = none) (hp : getKey sets "publishedAt" = none) :
    s.owner = none ∧ s.status = none ∧ s.isPublished = none ∧ s.publishedAt = none := by
  unfold castSets at h
  rw [ho, hs, hi, hp] at h
  split at h
  · split at h
    · rename_i o st b pa _ _ _ e1 e2 e3 e4 _ _ _
      simp only [Option.some.injEq] at h
      subst h
      simp only [castPath, Option.some.injEq] at e1 e2 e3 e4
      exact ⟨e1.symm, e2.symm, e3.symm, e4.symm⟩
    · exact absurd h (by simp)
  · exact absurd h (by simp)

theorem mem_rewriteFirst (filter : Property → Bool) (f : Property → Property)
    (db : List Property) (q : Property) (h : q ∈ rewriteFirst filter f db) :
    q ∈ db ∨ ∃ p ∈ db, q = f p := by
  induction db with
  | nil => simp [rewriteFirst] at h
  | cons r rs ih =>
    unfold rewriteFirst at h
    split at h
    · rcases List.mem_cons.1 h with h | h
      · exact Or.inr ⟨r, by simp, h⟩
      · exact Or.inl (by simp [h])
    · rcases List.mem_cons.1 h with h | h
      · exact Or.inl (by simp [h])
      · rcases ih h with h | ⟨p, hp, e⟩
        · exact Or.inl (by simp [h])
        · exact Or.inr ⟨p, by simp [hp], e⟩

theorem mem_saveProperty (p : Property) (db : List Property) (q : Property)
    (h : q ∈ saveProperty p db) : q ∈ db ∨ q = p := by
  induction db with
  | nil => simp [saveProperty] at h
  | cons r rs ih =>
    unfold saveProperty at h
    split at h
    · rcases List.mem_cons.1 h with h | h
      · exact Or.inr h
      · exact Or.inl (by simp [h])
    · rcases List.mem_cons.1 h with h | h
      · exact Or.inl (by simp [h])
      · rcases ih h with h | h
        · exact Or.inl (by simp [h])
        · exact Or.inr h

/-- An owner update whose body has no `$` key either leaves the store as it
is or rewrites one document, keeping its owner, status, publish flag and
publication date. -/
theorem updateProperty_operatorFree (validOther : Obj → Bool)
    (operators : Obj → Option (Property → Property)) (t : Nat) (user : Principal)
    (id : Nat) (body : Obj) (db : List Property) (h : operatorFree body) :
    (updateProperty validOther operators t user id body db).db = db ∨
    ∃ s : Sets, s.owner = none ∧ s.status = none ∧ s.isPublished = none ∧
      s.publishedAt = none ∧
      (updateProperty validOther operators t user id body db).db
        = rewriteFirst (fun p => p.id == id && p.owner == user.userId) (applySets s) db := by
  have hcu := castUpdate_of_operatorFree _ (operatorFree_updateData body t h)
  have hop := operatorEffect_of_operatorFree operators _ (operatorFree_updateData body t h)
  simp only [updateProperty, findOneAndUpdate, hcu, hop, Option.some_bind]
  cases hc : castSets validOther
      (spreadWith (omitKeys ["status", "isPublished", "publishedAt", "owner"] body)
        [("updatedAt", .date t)]) with
  | none => exact Or.inl rfl
  | some s =>
    cases hf : List.find? (fun p => p.id == id && p.owner == user.userId) db with
    | none => exact Or.inl rfl
    | some p =>
      simp only []
      by_cases ha : altersId s.id p.id = true
      · left
        simp only [ha, if_true]
      · right
        simp only [ha, if_false, Bool.false_eq_true]
        obtain ⟨h1, h2, h3, h4⟩ := castSets_protected validOther _ s hc
          (updateData_protected body t "owner" (by simp))
          (updateData_protected body t "status" (by simp))
          (updateData_protected body t "isPublished" (by simp))
          (updateData_protected body t "publishedAt" (by simp))
        exact ⟨s, h1, h2, h3, h4, rfl⟩

theorem approvedArePublished_setPropertyStatus (tU tP id : Nat) (body : Obj)
    (db : List Property) (h : approvedArePublished db) :
    approvedArePublished (setPropertyStatus tU tP id body db).db := by
  unfold setPropertyStatus
  split
  · exact h
  · rename_i status _
    split
    · exact h
    · rename_i p _
      intro q hq hs
      rcases mem_saveProperty _ _ q hq with hq | rfl
      · exact h q hq hs
      · unfold moderate at hs ⊢
        by_cases ha : (status == "approved") = true
        · simp [ha]
        · simp only [ha, if_false, Bool.false_eq_true] at hs
          exfalso
          apply ha
          by_cases hr : (status == "rejected") = true
          · simp only [hr, if_true] at hs
            simpa using hs
          · simp only [hr, if_false, Bool.false_eq_true] at hs
            simpa using hs

theorem approvedArePublished_updateProperty (validOther : Obj → Bool)
    (operators : Obj → Option (Property → Property)) (t : Nat)
    (user : Principal) (id : Nat) (body : Obj) (db : List Property) (hb : operatorFree body)
    (h : approvedArePublished db) :
    approvedArePublished (updateProperty validOther operators t user id body db).db := by
  rcases updateProperty_operatorFree validOther operators t user id body db hb with
    e | ⟨s, _, h2, h3, _, e⟩
  · rw [e]
    exact h
  · rw [e]
    intro q hq hs
    rcases mem_rewriteFirst _ _ db q hq with hq | ⟨p, hp, rfl⟩
    · exact h q hq hs
    · simp only [applySets, h2, h3, Option.getD_none] at hs ⊢
      exact h p hp hs

theorem handlerBody_eq (payload : Obj) : handlerBody payload = payload := rfl

/-- Creation, admin status operations and owner updates without `$` keys
keep every approved property published. -/
theorem approvedArePublished_lifeCycle (validOther : Obj → Bool)
    (operators : Obj → Option (Property → Property))
    (newId tCreated tUpdated : Nat) (owner : Principal) (payload : Obj) (ops : List Op)
    (h : updatesOperatorFree ops) :
    approvedArePublished
      (lifeCycle validOther operators newId tCreated tUpdated owner payload ops) := by
  unfold lifeCycle
  have h0 : approvedArePublished
      (createProperty validOther newId tCreated tUpdated owner (handlerBody payload) []).db := by
    obtain ⟨h1, h2, _⟩ := create_pending validOther newId tCreated tUpdated owner
      (handlerBody payload) []
    cases hp : (createProperty validOther newId tCreated tUpdated owner
        (handlerBody payload) []).property with
    | none =>
      rw [h2 hp]
      intro q hq
      simp at hq
    | some p =>
      obtain ⟨hs, _, hdb⟩ := h1 p hp
      rw [hdb]
      intro q hq hq2
      simp only [List.nil_append, List.mem_singleton] at hq
      subst hq
      rw [hs] at hq2
      exact absurd hq2 (by decide)
  generalize (createProperty validOther newId tCreated tUpdated owner
    (handlerBody payload) []).db = db at h0
  induction ops generalizing db with
  | nil => exact h0
  | cons op ops ih =>
    rw [List.foldl_cons]
    cases op with
    | adminStatus pl tU tP =>
      exact ih h _ (approvedArePublished_setPropertyStatus tU tP newId _ db h0)
    | ownerUpdate pl tU =>
      exact ih h.2 _ (approvedArePublished_updateProperty validOther operators tU owner newId _ db
        (by rw [handlerBody_eq]; exact h.1) h0)

/-! ## Authentication -/

theorem splitOnChar_of_not_mem (sep : Char) (l : List Char) (h : sep ∉ l) :
    splitOnChar sep l = [l] := by
  induction l with
  | nil => rfl
  | cons c cs ih =>
    have hc : c ≠ sep := by
      intro e
      apply h
      simp [e]
    have hcs : sep ∉ cs := by
      intro hm
      apply h
      simp [hm]
    unfold splitOnChar
    rw [if_neg hc, ih hcs]

theorem splitOnChar_bearer (token : List Char) (h : ' ' ∉ token) :
    splitOnChar ' ' ("Bearer ".data ++ token) = ["Bearer".data, token] := by
  have e : "Bearer ".data ++ token = 'B' :: 'e' :: 'a' :: 'r' :: 'e' :: 'r' :: ' ' :: token := rfl
  rw [e]
  simp [splitOnChar, splitOnChar_of_not_mem ' ' token h]

theorem attachUser_trace_head (castId : Value → Option Nat) (users : List User)
    (token secret : String) (userId : Option Value) :
    (attachUser castId users token secret userId).trace.head?
      = some (.verify token secret) := by
  unfold attachUser
  repeat' split
  all_goals rfl

/-- Every run of `resolveToken` starts with the call to `jwt.verify`. -/
theorem resolveToken_trace_head (jwtVerify : String → String → VerifyResult)
    (castId : Value → Option Nat) (users : List User) (token secret : String) :
    (resolveToken jwtVerify castId users token secret).trace.head?
      = some (.verify token secret) := by
  unfold resolveToken
  split
  · rfl
  · rfl
  · rfl
  · rfl
  · exact attachUser_trace_head castId users token secret _

/-- A header `Bearer <token>` whose token has no space and a length within
10..500 reaches the secret check. -/
theorem authenticateToken_bearer (jwtVerify : String → String → VerifyResult)
    (castId : Value → Option Nat) (env : Env) (users : List User) (token : List Char)
    (secret : String) (hsp : ' ' ∉ token) (hlo : 10 ≤ token.length)
    (hhi : token.length ≤ 500) (hsec : env.jwtSecret = some secret) (hne : secret ≠ "")
    (hph : secret ≠ placeholderSecret) :
    authenticateToken jwtVerify castId env users (some ("Bearer " ++ String.mk token))
      = resolveToken jwtVerify castId users (String.mk token) secret := by
  have hd : ("Bearer " ++ String.mk token).data = "Bearer ".data ++ token := by
    rw [String.data_append]
  have hnz : ("Bearer " ++ String.mk token) ≠ "" := by
    intro e
    have := congrArg String.data e
    rw [hd] at this
    simp at this
  unfold authenticateToken
  simp only [beq_iff_eq, hnz, if_false, hd, splitOnChar_bearer token hsp]
  have h1 : ¬ (token.length < 10) := by omega
  have h2 : ¬ (token.length > 500) := by omega
  simp [h1, h2, hsec, hne, hph]

/-- C9: `authenticateToken` answers 401 without calling `jwt.verify`, without
a user lookup and without calling `next` when the `Authorization` header is
absent, or does not split on single spaces into exactly two parts of which the
first is `Bearer`, or the token part is shorter than 10 or longer than 500
characters; a token of length 10 up to 500 (both bounds included) passes the
check and is handed to `jwt.verify`. -/
theorem malformed_header_rejected (jwtVerify : String → String → VerifyResult)
    (castId : Value → Option Nat) (env : Env) (users : List User) :
    (∀ authHeader : Option String,
      (authHeader = none ∨ ∃ header, authHeader = some header ∧
        ((splitOnChar ' ' header.data).length ≠ 2 ∨
         (splitOnChar ' ' header.data).head? ≠ some "Bearer".data ∨
         ((splitOnChar ' ' header.data).getD 1 []).length < 10 ∨
         500 < ((splitOnChar ' ' header.data).getD 1 []).length)) →
      (authenticateToken jwtVerify castId env users authHeader).code = some 401 ∧
      (authenticateToken jwtVerify castId env users authHeader).next = false ∧
      (authenticateToken jwtVerify castId env users authHeader).user = none ∧
      (authenticateToken jwtVerify castId env users authHeader).trace = []) ∧
    (∀ (token : List Char) (secret : String), ' ' ∉ token → 10 ≤ token.length →
      token.length ≤ 500 → env.jwtSecret = some secret → secret ≠ "" →
      secret ≠ placeholderSecret →
      (authenticateToken jwtVerify castId env users
        (some ("Bearer " ++ String.mk token))).trace.head?
        = some (.verify (String.mk token) secret)) := by
  constructor
  · intro authHeader h
    rcases h with rfl | ⟨header, rfl, h⟩
    · simp [authenticateToken, respond]
    · unfold authenticateToken
      by_cases he : (header == "") = true
      · simp [he, respond]
      · simp only [he, if_false, Bool.false_eq_true]
        by_cases hp : ((splitOnChar ' ' header.data).length != 2 ||
            (splitOnChar ' ' header.data).head? != some "Bearer".data) = true
        · simp [hp, respond]
        · simp only [hp, if_false, Bool.false_eq_true]
          have hlen : (decide (((splitOnChar ' ' header.data).getD 1 []).length < 10) ||
              decide (((splitOnChar ' ' header.data).getD 1 []).length > 500)) = true := by
            rcases h with h | h | h | h
            · exfalso
              apply hp
              simp [h]
            · exfalso
              apply hp
              simp [h]
            · rw [Bool.or_eq_true, decide_eq_true_eq, decide_eq_true_eq]
              exact Or.inl h
            · rw [Bool.or_eq_true, decide_eq_true_eq, decide_eq_true_eq]
              exact Or.inr h
          rw [if_pos hlen]
          exact ⟨rfl, rfl, rfl, rfl⟩
  · intro token secret hsp hlo hhi hsec hne hph
    rw [authenticateToken_bearer jwtVerify castId env users token secret hsp hlo hhi hsec
      hne hph]
    exact resolveToken_trace_head jwtVerify castId users (String.mk token) secret

/-- C10: with a configured secret, for every header `Bearer <token>` (token
without a space, of length 10 to 500) whose token `jwt.verify` does not
decode under that secret, `authenticateToken` produces a response with status
401, does not call `next` and attaches no principal. -/
theorem failed_verification_rejected (jwtVerify : String → String → VerifyResult)
    (castId : Value → Option Nat) (env : Env) (users : List User) (token : List Char)
    (secret : String) (hsp : ' ' ∉ token) (hlo : 10 ≤ token.length)
    (hhi : token.length ≤ 500) (hsec : env.jwtSecret = some secret) (hne : secret ≠ "")
    (hph : secret ≠ placeholderSecret)
    (hfail : ∀ payload, jwtVerify (String.mk token) secret ≠ .decoded payload) :
    (authenticateToken jwtVerify castId env users
      (some ("Bearer " ++ String.mk token))).code = some 401 ∧
    (authenticateToken jwtVerify castId env users
      (some ("Bearer " ++ String.mk token))).next = false ∧
    (authenticateToken jwtVerify castId env users
      (some ("Bearer " ++ String.mk token))).user = none := by
  rw [authenticateToken_bearer jwtVerify castId env users token secret hsp hlo hhi hsec
    hne hph]
  unfold resolveToken
  split
  · simp [respond]
  · simp [respond]
  · simp [respond]
  · simp [respond]
  · rename_i payload _ hd
    exact absurd hd (hfail payload)

/-! ## Instances at concrete inputs -/

theorem create_forces_pending_unpublished_witness :
    ∃ p, (createProperty (fun _ => true) 1 10 10 ownerSeven
        [("title", .str "House"), ("status", .str "approved"), ("isPublished", .bool true)]
        []).property = some p ∧ p.status = "pending" ∧ p.isPublished = false := by
  obtain ⟨h1, _, h3⟩ := create_forces_pending_unpublished (fun _ => true) 1 10 10 ownerSeven
    [("title", .str "House"), ("status", .str "approved"), ("isPublished", .bool true)] []
  obtain ⟨p, hp⟩ := h3 (fun _ => rfl)
  exact ⟨p, hp, (h1 p hp).1, (h1 p hp).2.1⟩

theorem approve_publishes_witness :
    findById 1 [pendingListing] = some pendingListing ∧
    (setPropertyStatus 200 201 1 [("status", .str "approved")] [pendingListing]).code = 200 ∧
    ∃ q, findById 1
        (setPropertyStatus 200 201 1 [("status", .str "approved")] [pendingListing]).db
        = some q ∧
      q.status = "approved" ∧ q.isPublished = true ∧ q.publishedAt = some 201 :=
  ⟨rfl, approve_publishes 200 201 1 [("status", .str "approved")] [pendingListing]
    pendingListing rfl rfl⟩

theorem reject_unpublishes_witness :
    findById 1 [publishedListing] = some publishedListing ∧
    (setPropertyStatus 200 201 1 [("status", .str "rejected")] [publishedListing]).code = 200 ∧
    ∃ q, findById 1
        (setPropertyStatus 200 201 1 [("status", .str "rejected")] [publishedListing]).db
        = some q ∧
      q.status = "rejected" ∧ q.isPublished = false ∧ q.publishedAt = some 100 :=
  ⟨rfl, reject_unpublishes 200 201 1 [("status", .str "rejected")] [publishedListing]
    publishedListing rfl rfl⟩

theorem illegal_status_rejected_witness :
    getKey [("status", Value.str "sold")] "status" = some (.str "sold") ∧
    (setPropertyStatus 200 201 1 [("status", .str "sold")] [publishedListing]).code = 400 ∧
    (setPropertyStatus 200 201 1 [("status", .str "sold")] [publishedListing]).db
      = [publishedListing] := by
  have h := illegal_status_rejected 200 201 1 [("status", .str "sold")] [publishedListing]
    (by simp [getKey]) (by simp [getKey]) (by simp [getKey])
  exact ⟨rfl, h.1, h.2.2.2⟩

theorem unknown_property_not_found_witness :
    castOid (.str "000000000000000000000002") = some 2 ∧
    (∀ p ∈ [publishedListing], p.id ≠ 2) ∧
    (setPropertyStatusRoute castOid 200 201 "000000000000000000000002"
      [("status", .str "approved")] [publishedListing]).code = 404 ∧
    (setPropertyStatusRoute castOid 200 201 "000000000000000000000002"
      [("status", .str "approved")] [publishedListing]).db = [publishedListing] ∧
    (setPropertyStatusRoute castOid 200 201 "not-an-id"
      [("status", .str "approved")] [publishedListing]).code = 500 ∧
    (setPropertyStatusRoute castOid 200 201 "not-an-id"
      [("status", .str "approved")] [publishedListing]).db = [publishedListing] := by
  have hc : castOid (.str "000000000000000000000002") = some 2 := by decide
  have hid : ∀ p ∈ [publishedListing], p.id ≠ 2 := by
    intro p hp
    simp only [List.mem_singleton] at hp
    subst hp
    decide
  have h := (unknown_property_not_found castOid 200 201 "000000000000000000000002"
    [("status", .str "approved")] [publishedListing] "approved" (Or.inr (Or.inl rfl)) rfl).1
    2 hc hid
  have h5 := (unknown_property_not_found castOid 200 201 "not-an-id"
    [("status", .str "approved")] [publishedListing] "approved" (Or.inr (Or.inl rfl)) rfl).2
    (by decide)
  exact ⟨hc, hid, h.1, h.2.2.2, h5.1, h5.2.2.2⟩

theorem malformed_header_rejected_witness :
    (authenticateToken rejectingVerify numericCast configuredEnv [] (some "Basic abc")).code
      = some 401 ∧
    (authenticateToken rejectingVerify numericCast configuredEnv [] (some "Basic abc")).trace
      = [] ∧
    (authenticateToken rejectingVerify numericCast configuredEnv []
      (some ("Bearer " ++ String.mk "abcdefghij".data))).trace.head?
      = some (.verify (String.mk "abcdefghij".data) "k3y-of-the-deployment") := by
  have h := malformed_header_rejected rejectingVerify numericCast configuredEnv []
  have h1 := h.1 (some "Basic abc") (Or.inr ⟨"Basic abc", rfl, Or.inr (Or.inl (by decide))⟩)
  have h2 := h.2 "abcdefghij".data "k3y-of-the-deployment" (by decide) (by decide)
    (by decide) rfl (by decide) (by decide)
  exact ⟨h1.1, h1.2.2.2, h2⟩

theorem failed_verification_rejected_witness :
    (∀ payload, rejectingVerify (String.mk "abcdefghij".data) "k3y-of-the-deployment"
      ≠ .decoded payload) ∧
    (authenticateToken rejectingVerify numericCast configuredEnv []
      (some ("Bearer " ++ String.mk "abcdefghij".data))).code = some 401 ∧
    (authenticateToken rejectingVerify numericCast configuredEnv []
      (some ("Bearer " ++ String.mk "abcdefghij".data))).next = false := by
  have hf : ∀ payload, rejectingVerify (String.mk "abcdefghij".data) "k3y-of-the-deployment"
      ≠ .decoded payload := by
    intro payload h
    cases h
  have h := failed_verification_rejected rejectingVerify numericCast configuredEnv []
    "abcdefghij".data "k3y-of-the-deployment" (by decide) (by decide) (by decide) rfl
    (by decide) (by decide) hf
  exact ⟨hf, h.1, h.2.1⟩

/-! ## Identity resolution -/

/-- A header `Bearer <token>` whose token has no space and a length within
10..500 reaches the secret check, whatever the environment. -/
theorem authenticateToken_reaches (jwtVerify : String → String → VerifyResult)
    (castId : Value → Option Nat) (env : Env) (users : List User) (token : List Char)
    (hsp : ' ' ∉ token) (hlo : 10 ≤ token.length) (hhi : token.length ≤ 500) :
    authenticateToken jwtVerify castId env users (some ("Bearer " ++ String.mk token))
      = if (secretUnusable env && isProduction env) = true then
          respond 500 "خطأ في إعدادات الخادم" []
        else resolveToken jwtVerify castId users (String.mk token) (secretInUse env) := by
  have hd : ("Bearer " ++ String.mk token).data = "Bearer ".data ++ token := by
    rw [String.data_append]
  have hnz : ("Bearer " ++ String.mk token) ≠ "" := by
    intro e
    have := congrArg String.data e
    rw [hd] at this
    simp at this
  have h1 : ¬ (token.length < 10) := by omega
  have h2 : ¬ (token.length > 500) := by omega
  unfold authenticateToken
  simp only [beq_iff_eq, hnz, if_false, hd, splitOnChar_bearer token hsp]
  cases hs : env.jwtSecret with
  | none => simp [h1, h2, secretUnusable, secretInUse, hs]
  | some s =>
    by_cases he : s = ""
    · simp [h1, h2, secretUnusable, secretInUse, hs, he]
    · by_cases hp : s = placeholderSecret
      · simp [h1, h2, secretUnusable, secretInUse, hs, he, hp]
      · simp [h1, h2, secretUnusable, secretInUse, hs, he, hp]

theorem resolveToken_null (jwtVerify : String → String → VerifyResult)
    (castId : Value → Option Nat) (users : List User) (token secret : String)
    (h : jwtVerify token secret = .decoded .null) :
    resolveToken jwtVerify castId users token secret
      = respond 401 "خطأ في التحقق من الرمز المميز" [.verify token secret] := by
  unfold resolveToken
  split <;> simp_all

theorem resolveToken_payload (jwtVerify : String → String → VerifyResult)
    (castId : Value → Option Nat) (users : List User) (token secret : String)
    (payload : Value) (h : jwtVerify token secret = .decoded payload)
    (hn : payload ≠ .null) :
    resolveToken jwtVerify castId users token secret
      = attachUser castId users token secret (decodedUserId payload) := by
  unfold resolveToken
  split
  · simp_all
  · simp_all
  · simp_all
  · rename_i h2
    rw [h] at h2
    simp only [VerifyResult.decoded.injEq] at h2
    exact absurd h2 hn
  · rename_i p _ h2
    rw [h] at h2
    simp only [VerifyResult.decoded.injEq] at h2
    rw [h2]

/-- A run of `attachUser` either answers 401 without calling `next`, or finds
an active user under the id of the payload and attaches its three fields. -/
theorem attachUser_cases (castId : Value → Option Nat) (users : List User)
    (token secret : String) (userId : Option Value) :
    ((attachUser castId users token secret userId).code = some 401 ∧
      (attachUser castId users token secret userId).next = false ∧
      (attachUser castId users token secret userId).user = none) ∨
    ∃ uid id u, userId = some uid ∧ truthy (some uid) = true ∧ castId uid = some id ∧
      users.find? (fun u => u.id == id) = some u ∧ u.isActive = true ∧
      (attachUser castId users token secret userId).code = none ∧
      (attachUser castId users token secret userId).next = true ∧
      (attachUser castId users token secret userId).user
        = some { userId := u.id, email := u.email, userType := u.userType } := by
  unfold attachUser
  cases userId with
  | none => exact Or.inl ⟨rfl, rfl, rfl⟩
  | some uid =>
    by_cases ht : truthy (some uid) = true
    · simp only [ht, Bool.not_true, Bool.false_eq_true, if_false]
      cases hc : castId uid with
      | none => exact Or.inl ⟨rfl, rfl, rfl⟩
      | some id =>
        simp only []
        cases hf : List.find? (fun u => u.id == id) users with
        | none => exact Or.inl ⟨rfl, rfl, rfl⟩
        | some u =>
          simp only []
          by_cases ha : u.isActive = true
          · refine Or.inr ⟨uid, id, u, rfl, ht, hc, hf, ha, ?_⟩
            simp [ha]
          · left
            simp [ha, respond]
    · left
      simp [ht, respond]

/-- A falsy `userId` is answered before any lookup. -/
theorem attachUser_falsy (castId : Value → Option Nat) (users : List User)
    (token secret : String) (userId : Option Value) (h : truthy userId = false) :
    attachUser castId users token secret userId
      = respond 401 "الرمز المميز غير صالح" [.verify token secret] := by
  unfold attachUser
  cases userId with
  | none => rfl
  | some uid => simp [h]

/-- A run of `resolveToken` either answers 401 without calling `next`, or
finds an active user and attaches its three fields. -/
theorem resolveToken_cases (jwtVerify : String → String → VerifyResult)
    (castId : Value → Option Nat) (users : List User) (token secret : String) :
    ((resolveToken jwtVerify castId users token secret).code = some 401 ∧
      (resolveToken jwtVerify castId users token secret).next = false ∧
      (resolveToken jwtVerify castId users token secret).user = none) ∨
    ∃ payload uid id u, jwtVerify token secret = .decoded payload ∧
      decodedUserId payload = some uid ∧ truthy (some uid) = true ∧ castId uid = some id ∧
      users.find? (fun u => u.id == id) = some u ∧ u.isActive = true ∧
      (resolveToken jwtVerify castId users token secret).code = none ∧
      (resolveToken jwtVerify castId users token secret).next = true ∧
      (resolveToken jwtVerify castId users token secret).user
        = some { userId := u.id, email := u.email, userType := u.userType } := by
  cases hv : jwtVerify token secret with
  | tokenExpired => left; simp [resolveToken, hv, respond]
  | jsonWebTokenError => left; simp [resolveToken, hv, respond]
  | otherError => left; simp [resolveToken, hv, respond]
  | decoded payload =>
    by_cases hn : payload = .null
    · subst hn
      left
      rw [resolveToken_null jwtVerify castId users token secret hv]
      exact ⟨rfl, rfl, rfl⟩
    · rw [resolveToken_payload jwtVerify castId users token secret payload hv hn]
      rcases attachUser_cases castId users token secret (decodedUserId payload) with
        h | ⟨uid, id, u, h1, h2, h3, h4, h5, h6⟩
      · exact Or.inl h
      · exact Or.inr ⟨payload, uid, id, u, rfl, h1, h2, h3, h4, h5, h6⟩

/-- Every run of `authenticateToken` either answers at once, with no call made,
or continues into `resolveToken`. -/
theorem authenticateToken_shape (jwtVerify : String → String → VerifyResult)
    (castId : Value → Option Nat) (env : Env) (users : List User)
    (authHeader : Option String) :
    (∃ c m, authenticateToken jwtVerify castId env users authHeader = respond c m []) ∨
    ∃ token secret, authenticateToken jwtVerify castId env users authHeader
      = resolveToken jwtVerify castId users token secret := by
  unfold authenticateToken
  split
  · exact Or.inl ⟨_, _, rfl⟩
  · split
    · exact Or.inl ⟨_, _, rfl⟩
    · simp only []
      split
      · exact Or.inl ⟨_, _, rfl⟩
      · split
        · exact Or.inl ⟨_, _, rfl⟩
        · split
          · exact Or.inl ⟨_, _, rfl⟩
          · exact Or.inr ⟨_, _, rfl⟩

/-- C11: for every header `Bearer <token>` that reaches verification and whose
token `jwt.verify` decodes to a payload without a `userId`, or with an empty
(falsy) one, `authenticateToken` answers 401, does not call `next`, attaches no
principal, and its only call is the one to `jwt.verify`: no user lookup. -/
theorem missing_userId_rejected (jwtVerify : String → String → VerifyResult)
    (castId : Value → Option Nat) (env : Env) (users : List User) (token : List Char)
    (payload : Value) (hsp : ' ' ∉ token) (hlo : 10 ≤ token.length)
    (hhi : token.length ≤ 500)
    (henv : (secretUnusable env && isProduction env) = false)
    (hv : jwtVerify (String.mk token) (secretInUse env) = .decoded payload)
    (hu : truthy (decodedUserId payload) = false) :
    (authenticateToken jwtVerify castId env users
      (some ("Bearer " ++ String.mk token))).code = some 401 ∧
    (authenticateToken jwtVerify castId env users
      (some ("Bearer " ++ String.mk token))).next = false ∧
    (authenticateToken jwtVerify castId env users
      (some ("Bearer " ++ String.mk token))).user = none ∧
    (authenticateToken jwtVerify castId env users
      (some ("Bearer " ++ String.mk token))).trace
      = [.verify (String.mk token) (secretInUse env)] := by
  rw [authenticateToken_reaches jwtVerify castId env users token hsp hlo hhi]
  simp only [henv, Bool.false_eq_true, if_false]
  by_cases hn : payload = .null
  · subst hn
    rw [resolveToken_null jwtVerify castId users _ _ hv]
    exact ⟨rfl, rfl, rfl, rfl⟩
  · rw [resolveToken_payload jwtVerify castId users _ _ payload hv hn,
      attachUser_falsy castId users _ _ _ hu]
    exact ⟨rfl, rfl, rfl, rfl⟩

/-- C12: for every header `Bearer <token>` that reaches verification and whose
token `jwt.verify` decodes, if the `userId` of the payload is the id of no user
in the store, `authenticateToken` answers 401, does not call `next` and
attaches no principal. -/
theorem unknown_user_rejected (jwtVerify : String → String → VerifyResult)
    (castId : Value → Option Nat) (env : Env) (users : List User) (token : List Char)
    (payload : Value) (hsp : ' ' ∉ token) (hlo : 10 ≤ token.length)
    (hhi : token.length ≤ 500)
    (henv : (secretUnusable env && isProduction env) = false)
    (hv : jwtVerify (String.mk token) (secretInUse env) = .decoded payload)
    (hu : ∀ uid id, decodedUserId payload = some uid → castId uid = some id →
      ∀ u ∈ users, u.id ≠ id) :
    (authenticateToken jwtVerify castId env users
      (some ("Bearer " ++ String.mk token))).code = some 401 ∧
    (authenticateToken jwtVerify castId env users
      (some ("Bearer " ++ String.mk token))).next = false ∧
    (authenticateToken jwtVerify castId env users
      (some ("Bearer " ++ String.mk token))).user = none := by
  rw [authenticateToken_reaches jwtVerify castId env users token hsp hlo hhi]
  simp only [henv, Bool.false_eq_true, if_false]
  rcases resolveToken_cases jwtVerify castId users (String.mk token) (secretInUse env) with
    h | ⟨payload1, uid, id, u, h1, h2, _, h4, h5, _⟩
  · exact h
  · exfalso
    rw [hv] at h1
    simp only [VerifyResult.decoded.injEq] at h1
    subst h1
    have hm := List.mem_of_find?_eq_some h5
    have hid := List.find?_some h5
    exact hu uid id h2 h4 u hm (by simpa using hid)

/-- C13: for every header `Bearer <token>` that reaches verification and whose
token `jwt.verify` decodes, if the `userId` of the payload is the id of a
stored user with `isActive = false`, `authenticateToken` answers 401, does not
call `next` and attaches no principal, whatever else the payload carries. -/
theorem inactive_user_rejected (jwtVerify : String → String → VerifyResult)
    (castId : Value → Option Nat) (env : Env) (users : List User) (token : List Char)
    (payload uid : Value) (id : Nat) (user : User) (hsp : ' ' ∉ token)
    (hlo : 10 ≤ token.length) (hhi : token.length ≤ 500)
    (henv : (secretUnusable env && isProduction env) = false)
    (hv : jwtVerify (String.mk token) (secretInUse env) = .decoded payload)
    (hu : decodedUserId payload = some uid) (hc : castId uid = some id)
    (hf : users.find? (fun u => u.id == id) = some user) (ha : user.isActive = false) :
    (authenticateToken jwtVerify castId env users
      (some ("Bearer " ++ String.mk token))).code = some 401 ∧
    (authenticateToken jwtVerify castId env users
      (some ("Bearer " ++ String.mk token))).next = false ∧
    (authenticateToken jwtVerify castId env users
      (some ("Bearer " ++ String.mk token))).user = none := by
  rw [authenticateToken_reaches jwtVerify castId env users token hsp hlo hhi]
  simp only [henv, Bool.false_eq_true, if_false]
  rcases resolveToken_cases jwtVerify castId users (String.mk token) (secretInUse env) with
    h | ⟨payload1, uid1, id1, u, h1, h2, _, h4, h5, h6, _⟩
  · exact h
  · exfalso
    rw [hv] at h1
    simp only [VerifyResult.decoded.injEq] at h1
    subst h1
    rw [hu] at h2
    simp only [Option.some.injEq] at h2
    subst h2
    rw [hc] at h4
    simp only [Option.some.injEq] at h4
    subst h4
    rw [hf] at h5
    simp only [Option.some.injEq] at h5
    subst h5
    rw [ha] at h6
    exact absurd h6 (by decide)

/-- Every run of `authenticateToken` either answers at once, with no call made,
or continues into `resolveToken` with the second part of the header as the
token and `secretInUse` as the key. -/
theorem authenticateToken_resolves (jwtVerify : String → String → VerifyResult)
    (castId : Value → Option Nat) (env : Env) (users : List User)
    (authHeader : Option String) :
    (∃ c m, authenticateToken jwtVerify castId env users authHeader = respond c m []) ∨
    ∃ header, authHeader = some header ∧
      (splitOnChar ' ' header.data).head? = some "Bearer".data ∧
      authenticateToken jwtVerify castId env users authHeader
        = resolveToken jwtVerify castId users
            (String.mk ((splitOnChar ' ' header.data).getD 1 [])) (secretInUse env) := by
  have hsec : (if (match env.jwtSecret with
        | none => false
        | some s => s != "") = true
      then env.jwtSecret.getD placeholderSecret else placeholderSecret) = secretInUse env := by
    unfold secretInUse
    cases env.jwtSecret with
    | none => rfl
    | some s =>
      by_cases he : s = ""
      · simp [he]
      · simp [he]
  unfold authenticateToken
  split
  · exact Or.inl ⟨_, _, rfl⟩
  · rename_i header
    split
    · exact Or.inl ⟨_, _, rfl⟩
    · simp only []
      split
      · exact Or.inl ⟨_, _, rfl⟩
      · rename_i hparts
        split
        · exact Or.inl ⟨_, _, rfl⟩
        · split
          · exact Or.inl ⟨_, _, rfl⟩
          · refine Or.inr ⟨header, rfl, ?_, ?_⟩
            · simp only [Bool.or_eq_true, not_or, bne_iff_ne, ne_eq, not_not] at hparts
              exact hparts.2
            · rw [hsec]

/-- C14: whenever `authenticateToken` calls `next`, it has sent no response;
the header is `Bearer <token>`, `jwt.verify` decoded the token under the key in
use, and the principal attached is made of the `_id`, `email` and `userType`
of the active user that the store holds under the cast `userId` of the decoded
payload (a `Principal` has these three fields and no other, so no password
hash; `email` and `userType` are read from the stored user, not from the
payload); whenever it does not call `next` it attaches no principal. -/
theorem principal_from_store (jwtVerify : String → String → VerifyResult)
    (castId : Value → Option Nat) (env : Env) (users : List User)
    (authHeader : Option String) :
    ((authenticateToken jwtVerify castId env users authHeader).next = true →
      ∃ header payload uid id u,
        authHeader = some header ∧
        (splitOnChar ' ' header.data).head? = some "Bearer".data ∧
        jwtVerify (String.mk ((splitOnChar ' ' header.data).getD 1 [])) (secretInUse env)
          = .decoded payload ∧
        decodedUserId payload = some uid ∧ castId uid = some id ∧
        users.find? (fun v => v.id == id) = some u ∧ u ∈ users ∧ u.id = id ∧
        u.isActive = true ∧
        (authenticateToken jwtVerify castId env users authHeader).code = none ∧
        (authenticateToken jwtVerify castId env users authHeader).user
          = some { userId := u.id, email := u.email, userType := u.userType }) ∧
    ((authenticateToken jwtVerify castId env users authHeader).next = false →
      (authenticateToken jwtVerify castId env users authHeader).user = none) := by
  rcases authenticateToken_resolves jwtVerify castId env users authHeader with
    ⟨c, m, e⟩ | ⟨header, hh, hb, e⟩
  · rw [e]
    exact ⟨fun h => absurd h (by simp [respond]), fun _ => rfl⟩
  · rw [e]
    rcases resolveToken_cases jwtVerify castId users
        (String.mk ((splitOnChar ' ' header.data).getD 1 [])) (secretInUse env) with
      ⟨_, h2, h3⟩ | ⟨payload, uid, id, u, hv, hd, _, hc, h5, h6, h7, h8, h9⟩
    · exact ⟨fun h => absurd (h2.symm.trans h) (by decide), fun _ => h3⟩
    · refine ⟨fun _ => ⟨header, payload, uid, id, u, hh, hb, hv, hd, hc, h5,
        List.mem_of_find?_eq_some h5, ?_, h6, h7, h9⟩,
        fun h => absurd (h.symm.trans h8) (by decide)⟩
      have := List.find?_some h5
      simpa using this

/-- C15: in production mode, when `JWT_SECRET` is unset, empty or equal to the
placeholder, every header `Bearer <token>` that passes the format and length
checks is answered with status 500, without a call to `jwt.verify` or to the
user store, without `next` and without a principal. -/
theorem placeholder_secret_refused (jwtVerify : String → String → VerifyResult)
    (castId : Value → Option Nat) (env : Env) (users : List User) (token : List Char)
    (hsp : ' ' ∉ token) (hlo : 10 ≤ token.length) (hhi : token.length ≤ 500)
    (hprod : env.nodeEnv = some "production")
    (hsec : env.jwtSecret = none ∨ env.jwtSecret = some "" ∨
      env.jwtSecret = some "darigo-super-secret-key-change-this-in-production") :
    (authenticateToken jwtVerify castId env users
      (some ("Bearer " ++ String.mk token))).code = some 500 ∧
    (authenticateToken jwtVerify castId env users
      (some ("Bearer " ++ String.mk token))).next = false ∧
    (authenticateToken jwtVerify castId env users
      (some ("Bearer " ++ String.mk token))).user = none ∧
    (authenticateToken jwtVerify castId env users
      (some ("Bearer " ++ String.mk token))).trace = [] := by
  rw [authenticateToken_reaches jwtVerify castId env users token hsp hlo hhi]
  have h : (secretUnusable env && isProduction env) = true := by
    rcases hsec with h | h | h <;> simp [secretUnusable, isProduction, h, hprod, placeholderSecret]
  rw [if_pos h]
  exact ⟨rfl, rfl, rfl, rfl⟩

/-! ## Routes that read the secret without the production check -/

/-- C16 (evaluation of the code): in production mode without `JWT_SECRET`,
`POST /api/auth/verify-token` and `PUT /api/auth/profile` verify the token of
the body under the placeholder key and accept it: both answer 200, and the
profile route rewrites the user the token names. -/
theorem placeholder_token_accepted :
    isProduction productionNoSecret = true ∧ secretUnusable productionNoSecret = true ∧
    (verifyTokenRoute placeholderVerify numericCast productionNoSecret
      [("token", .str "forged")] [activeUser]).code = 200 ∧
    (verifyTokenRoute placeholderVerify numericCast productionNoSecret
      [("token", .str "forged")] [activeUser]).trace
      = [.verify "forged" "darigo-super-secret-key-change-this-in-production"] ∧
    (updateAuthProfile placeholderVerify numericCast (fun _ => true) noOperators productionNoSecret 30
      [("token", .str "forged"), ("name", .str "Mallory")] [activeUser]).code = 200 ∧
    (updateAuthProfile placeholderVerify numericCast (fun _ => true) noOperators productionNoSecret 30
      [("token", .str "forged"), ("name", .str "Mallory")] [activeUser]).users.map
      (fun u => u.name) = ["Mallory"] := by
  refine ⟨by decide, by decide, by decide, rfl, by decide, by decide⟩

/-! ## Owner-scoped routes -/

theorem find_owned_none (user : Principal) (id : Nat) (db : List Property)
    (hown : ∀ q ∈ db, q.id = id → q.owner ≠ user.userId) :
    db.find? (fun p => p.id == id && p.owner == user.userId) = none := by
  rw [List.find?_eq_none]
  intro q hq h
  simp only [Bool.and_eq_true, beq_iff_eq] at h
  exact hown q hq h.1 h.2

/-- C17 (the claim as stated fails): a principal who does not own property 1
sends a `PUT` whose body Mongoose refuses to cast (`price` set to `abc`, or a
`$set` of `isPublished` to a string that is no boolean); the answer is 500,
not 404. -/
theorem non_owner_update_may_answer_500 :
    publishedListing.owner ≠ intruder.userId ∧
    (updateProperty priceIsNumber noOperators 30 intruder 1 [("price", .str "abc")]
      [publishedListing]).code = 500 ∧
    (updateProperty (fun _ => true) noOperators 30 intruder 1
      [("$set", .obj [("isPublished", .str "maybe")])] [publishedListing]).code = 500 := by
  decide

/-- C17 (amended): for every principal of any role and every id whose stored
property belongs to someone else, the owner-scoped delete answers 404 and the
owner-scoped update answers 404 or 500, with no property in the response and
never a success or a 403; the update answers 404, with the message of the
missing property, whenever its update document passes the casting and
validation that precede the query, so that 500 is the answer of the catch
block to a refused update document only; in every case the property store is
unchanged. -/
theorem non_owner_gets_not_found (validOther : Obj → Bool)
    (operators : Obj → Option (Property → Property)) (tUpdated : Nat)
    (user : Principal) (id : Nat) (body : Obj) (db : List Property)
    (hown : ∀ q ∈ db, q.id = id → q.owner ≠ user.userId) :
    (deleteProperty user id db).code = 404 ∧
    (deleteProperty user id db).db = db ∧
    (updateProperty validOther operators tUpdated user id body db).db = db ∧
    (updateProperty validOther operators tUpdated user id body db).property = none ∧
    ((updateProperty validOther operators tUpdated user id body db).code = 404 ∨
      (updateProperty validOther operators tUpdated user id body db).code = 500) ∧
    (updateAccepted validOther operators tUpdated body = true →
      (updateProperty validOther operators tUpdated user id body db).code = 404 ∧
      (updateProperty validOther operators tUpdated user id body db).message
        = "العقار غير موجود أو ليس لديك صلاحية لتعديله") ∧
    ((updateProperty validOther operators tUpdated user id body db).code = 500 →
      updateAccepted validOther operators tUpdated body = false) := by
  have hf := find_owned_none user id db hown
  refine ⟨by simp [deleteProperty, hf], by simp [deleteProperty, hf], ?_⟩
  unfold updateAccepted
  simp only [updateProperty, findOneAndUpdate]
  cases hc : (castUpdate (spreadWith
      (omitKeys ["status", "isPublished", "publishedAt", "owner"] body)
      [("updatedAt", .date tUpdated)])).bind (castSets validOther) with
  | none => simp
  | some sets =>
    cases he : operatorEffect operators (spreadWith
        (omitKeys ["status", "isPublished", "publishedAt", "owner"] body)
        [("updatedAt", .date tUpdated)]) with
    | none => simp
    | some effect => simp [hf]

/-- C18: `requireAdmin` calls `next` exactly when a user is stored under the
principal's id and that user has `userType = 'admin'`; otherwise it answers
403; and its result is the same for any two principals with the same user id,
whatever role they carry. -/
theorem requireAdmin_decision (users : List User) (principal : Principal) :
    ((requireAdmin users principal).next = true ↔
      ∃ u, users.find? (fun v => v.id == principal.userId) = some u ∧ u.userType = "admin") ∧
    ((requireAdmin users principal).next = false →
      (requireAdmin users principal).code = some 403) ∧
    (∀ other : Principal, other.userId = principal.userId →
      requireAdmin users other = requireAdmin users principal) := by
  refine ⟨?_, ?_, ?_⟩
  · unfold requireAdmin
    cases hf : List.find? (fun u => u.id == principal.userId) users with
    | none => simp
    | some u =>
      by_cases ha : u.userType = "admin"
      · simp [ha]
      · simp [ha]
  · unfold requireAdmin
    cases hf : List.find? (fun u => u.id == principal.userId) users with
    | none => simp
    | some u =>
      by_cases ha : u.userType = "admin"
      · simp [ha]
      · simp [ha]
  · intro other h
    unfold requireAdmin
    rw [h]

/-- C19 (evaluation of the code): the owner of a pending property sends a
`PUT` with the payload `{"$set": {"status": "approved", "isPublished": true}}`;
the update succeeds and the stored property is approved and published. -/
theorem owner_update_rewrites_status :
    (updateProperty (fun _ => true) noOperators 30 ownerSeven 1
      (handlerBody [("$set", .obj [("status", .str "approved"), ("isPublished", .bool true)])])
      [pendingListing]).code = 200 ∧
    statusAndFlag 1 [pendingListing] = some ("pending", false) ∧
    statusAndFlag 1
      (updateProperty (fun _ => true) noOperators 30 ownerSeven 1
        (handlerBody
          [("$set", .obj [("status", .str "approved"), ("isPublished", .bool true)])])
        [pendingListing]).db = some ("approved", true) := by
  decide

/-- C20 (evaluation of the code): an individual user sends `{"userType":
"admin"}` to `PUT /api/users/profile`, or the same with a token to
`PUT /api/auth/profile`; both answer 200 and the stored `userType` becomes
`'admin'`. -/
theorem profile_update_grants_admin :
    activeUser.userType = "individual" ∧
    (updateProfile sampleHash (fun _ => true) noOperators 30 ownerSeven
      (handlerBody [("userType", .str "admin")]) [activeUser]).code = 200 ∧
    (updateProfile sampleHash (fun _ => true) noOperators 30 ownerSeven
      (handlerBody [("userType", .str "admin")]) [activeUser]).users.map
      (fun u => (u.id, u.userType)) = [(7, "admin")] ∧
    (updateAuthProfile (decodingVerify (.num 7)) numericCast (fun _ => true) noOperators configuredEnv 30
      (handlerBody [("token", .str "issued-at-login"), ("userType", .str "admin")])
      [activeUser]).code = 200 ∧
    (updateAuthProfile (decodingVerify (.num 7)) numericCast (fun _ => true) noOperators configuredEnv 30
      (handlerBody [("token", .str "issued-at-login"), ("userType", .str "admin")])
      [activeUser]).users.map (fun u => (u.id, u.userType)) = [(7, "admin")] := by
  decide

/-! ## Instances at concrete inputs: identity resolution and owner scope -/

theorem missing_userId_rejected_witness :
    truthy (decodedUserId (.obj [("userId", .str ""), ("userType", .str "admin")])) = false ∧
    (authenticateToken (decodingVerify (.str "")) numericCast configuredEnv [activeUser]
      (some ("Bearer " ++ String.mk "abcdefghij".data))).code = some 401 ∧
    (authenticateToken (decodingVerify (.str "")) numericCast configuredEnv [activeUser]
      (some ("Bearer " ++ String.mk "abcdefghij".data))).trace
      = [.verify (String.mk "abcdefghij".data) (secretInUse configuredEnv)] := by
  have h := missing_userId_rejected (decodingVerify (.str "")) numericCast configuredEnv
    [activeUser] "abcdefghij".data (.obj [("userId", .str ""), ("userType", .str "admin")])
    (by decide) (by decide) (by decide) (by decide) rfl rfl
  exact ⟨rfl, h.1, h.2.2.2⟩

theorem unknown_user_rejected_witness :
    (∀ u ∈ [activeUser], u.id ≠ 9) ∧
    (authenticateToken (decodingVerify (.num 9)) numericCast configuredEnv [activeUser]
      (some ("Bearer " ++ String.mk "abcdefghij".data))).code = some 401 ∧
    (authenticateToken (decodingVerify (.num 9)) numericCast configuredEnv [activeUser]
      (some ("Bearer " ++ String.mk "abcdefghij".data))).next = false := by
  have hno : ∀ u ∈ [activeUser], u.id ≠ 9 := by
    intro u hu
    simp only [List.mem_singleton] at hu
    subst hu
    decide
  have h := unknown_user_rejected (decodingVerify (.num 9)) numericCast configuredEnv
    [activeUser] "abcdefghij".data (.obj [("userId", .num 9), ("userType", .str "admin")])
    (by decide) (by decide) (by decide) (by decide) rfl
    (by
      intro uid id h1 h2 u hu
      have e : uid = .num 9 := by
        have : decodedUserId (.obj [("userId", .num 9), ("userType", .str "admin")])
            = some (.num 9) := rfl
        rw [this] at h1
        simp only [Option.some.injEq] at h1
        exact h1.symm
      subst e
      have e2 : id = 9 := by
        have : numericCast (.num 9) = some 9 := rfl
        rw [this] at h2
        simp only [Option.some.injEq] at h2
        exact h2.symm
      subst e2
      exact hno u hu)
  exact ⟨hno, h.1, h.2.1⟩

theorem inactive_user_rejected_witness :
    disabledUser.isActive = false ∧
    (authenticateToken (decodingVerify (.num 8)) numericCast configuredEnv
      [activeUser, disabledUser]
      (some ("Bearer " ++ String.mk "abcdefghij".data))).code = some 401 ∧
    (authenticateToken (decodingVerify (.num 8)) numericCast configuredEnv
      [activeUser, disabledUser]
      (some ("Bearer " ++ String.mk "abcdefghij".data))).next = false := by
  have h := inactive_user_rejected (decodingVerify (.num 8)) numericCast configuredEnv
    [activeUser, disabledUser] "abcdefghij".data
    (.obj [("userId", .num 8), ("userType", .str "admin")]) (.num 8) 8 disabledUser
    (by decide) (by decide) (by decide) (by decide) rfl rfl rfl rfl rfl
  exact ⟨rfl, h.1, h.2.1⟩

theorem principal_from_store_witness :
    (authenticateToken (decodingVerify (.num 7)) numericCast configuredEnv
      [disabledUser, activeUser] (some "Bearer abcdefghij")).next = true ∧
    (authenticateToken (decodingVerify (.num 7)) numericCast configuredEnv
      [disabledUser, activeUser] (some "Bearer abcdefghij")).user
      = some { userId := 7, email := activeUser.email, userType := "individual" } ∧
    ∃ header payload uid id u,
      some "Bearer abcdefghij" = some header ∧
      (splitOnChar ' ' header.data).head? = some "Bearer".data ∧
      decodingVerify (.num 7) (String.mk ((splitOnChar ' ' header.data).getD 1 []))
        (secretInUse configuredEnv) = .decoded payload ∧
      decodedUserId payload = some uid ∧ numericCast uid = some id ∧
      [disabledUser, activeUser].find? (fun v => v.id == id) = some u ∧
      u ∈ [disabledUser, activeUser] ∧ u.id = id ∧ u.isActive = true ∧
      (authenticateToken (decodingVerify (.num 7)) numericCast configuredEnv
        [disabledUser, activeUser] (some "Bearer abcdefghij")).code = none ∧
      (authenticateToken (decodingVerify (.num 7)) numericCast configuredEnv
        [disabledUser, activeUser] (some "Bearer abcdefghij")).user
        = some { userId := u.id, email := u.email, userType := u.userType } := by
  have hn : (authenticateToken (decodingVerify (.num 7)) numericCast configuredEnv
      [disabledUser, activeUser] (some "Bearer abcdefghij")).next = true := by decide
  exact ⟨hn, rfl, (principal_from_store (decodingVerify (.num 7)) numericCast
    configuredEnv [disabledUser, activeUser] (some "Bearer abcdefghij")).1 hn⟩

theorem placeholder_secret_refused_witness :
    productionNoSecret.nodeEnv = some "production" ∧ productionNoSecret.jwtSecret = none ∧
    (authenticateToken (decodingVerify (.num 7)) numericCast productionNoSecret [activeUser]
      (some ("Bearer " ++ String.mk "abcdefghij".data))).code = some 500 ∧
    (authenticateToken (decodingVerify (.num 7)) numericCast productionNoSecret [activeUser]
      (some ("Bearer " ++ String.mk "abcdefghij".data))).trace = [] := by
  have h := placeholder_secret_refused (decodingVerify (.num 7)) numericCast productionNoSecret
    [activeUser] "abcdefghij".data (by decide) (by decide) (by decide) rfl (Or.inl rfl)
  exact ⟨rfl, rfl, h.1, h.2.2.2⟩

theorem non_owner_gets_not_found_witness :
    (∀ q ∈ [publishedListing], q.id = 1 → q.owner ≠ intruder.userId) ∧
    updateAccepted (fun _ => true) incPrice 30 [("$inc", .obj [("price", .num 1)])] = true ∧
    (deleteProperty intruder 1 [publishedListing]).code = 404 ∧
    (updateProperty (fun _ => true) incPrice 30 intruder 1
      [("$inc", .obj [("price", .num 1)])] [publishedListing]).code = 404 ∧
    (updateProperty (fun _ => true) incPrice 30 intruder 1
      [("$inc", .obj [("price", .num 1)])] [publishedListing]).db = [publishedListing] := by
  have hown : ∀ q ∈ [publishedListing], q.id = 1 → q.owner ≠ intruder.userId := by
    intro q hq _
    simp only [List.mem_singleton] at hq
    subst hq
    decide
  have hacc : updateAccepted (fun _ => true) incPrice 30
      [("$inc", .obj [("price", .num 1)])] = true := by
    decide
  have h := non_owner_gets_not_found (fun _ => true) incPrice 30 intruder 1
    [("$inc", .obj [("price", .num 1)])] [publishedListing] hown
  exact ⟨hown, hacc, h.1, (h.2.2.2.2.2.1 hacc).1, h.2.2.1⟩

theorem requireAdmin_decision_witness :
    (requireAdmin [activeUser] intruder).next = false ∧
    (requireAdmin [activeUser] intruder).code = some 403 := by
  have h := requireAdmin_decision [activeUser] intruder
  have hn : (requireAdmin [activeUser] intruder).next = false := by decide
  exact ⟨hn, h.2.1 hn⟩

/-! ## Owner of a created property -/

/-- C28: for every principal and every request body, whatever `owner` the body
names, a property that `POST /api/properties` creates is stored with `owner`
equal to the principal's user id; the creation does take place whenever schema
validation accepts the remaining paths. -/
theorem created_property_owned_by_caller (validOther : Obj → Bool)
    (newId tCreated tUpdated : Nat) (user : Principal) (body : Obj) (db : List Property) :
    (∀ p, (createProperty validOther newId tCreated tUpdated user body db).property = some p →
      p.owner = user.userId ∧ p.id = newId ∧
      p ∈ (createProperty validOther newId tCreated tUpdated user body db).db) ∧
    ((∀ o, validOther o = true) →
      ∃ p, (createProperty validOther newId tCreated tUpdated user body db).property = some p) := by
  constructor
  · intro p hp
    unfold createProperty at hp ⊢
    cases hn : newProperty validOther newId
        (spreadWith (omitKeys ["status", "isPublished", "publishedAt"] body)
          [("owner", .oid user.userId), ("status", .str "pending"),
           ("isPublished", .bool false), ("createdAt", .date tCreated),
           ("updatedAt", .date tUpdated)]) with
    | none => simp [hn] at hp
    | some q =>
      simp only [hn, Option.some.injEq] at hp ⊢
      subst hp
      have hq := newProperty_creation validOther newId tCreated tUpdated user body q hn
      exact ⟨hq.2.1, hq.1, by simp⟩
  · intro hv
    obtain ⟨q, hq⟩ := newProperty_accepts validOther newId tCreated tUpdated user body hv
    exact ⟨q, by simp [createProperty, hq]⟩

theorem created_property_owned_by_caller_witness :
    ∃ p, (createProperty (fun _ => true) 1 10 10 ownerSeven
        [("title", .str "House"), ("owner", .oid 8)] []).property = some p ∧ p.owner = 7 := by
  obtain ⟨h1, h2⟩ := created_property_owned_by_caller (fun _ => true) 1 10 10 ownerSeven
    [("title", .str "House"), ("owner", .oid 8)] []
  obtain ⟨p, hp⟩ := h2 (fun _ => rfl)
  exact ⟨p, hp, (h1 p hp).1⟩

/-! ## The sanitizer and the body -/

/-- C27 (evaluation of the code): a request whose payload is
`{"$set": {"status": "approved"}}` goes through the two global middleware in
their registration order; the sanitizer finds no `req.body` yet, the parser
then sets it, and the body that reaches the handler still has the key `$set`,
while the sanitizer applied to that payload would have removed it. -/
theorem operator_key_reaches_handler :
    (sanitizeMiddleware (incoming none [("$set", .obj [("status", .str "approved")])])).body.isNone
      = true ∧
    (handlerBody [("$set", .obj [("status", .str "approved")])]).map (fun kv => kv.1)
      = ["$set"] ∧
    (handlerBody [("$set", .obj [("status", .str "approved")])]).any
      (fun kv => isOperatorKey kv.1) = true ∧
    (sanitizeObj [("$set", .obj [("status", .str "approved")])]).length = 0 := by
  refine ⟨by decide, by decide, by decide, ?_⟩
  simp [sanitizeObj, isOperatorKey]

/-! ## Stored passwords -/

/-- C21 (evaluation of the code): `PUT /api/auth/profile` with a body that
carries `password` answers 200 and stores the supplied string itself, not its
hash; `PUT /api/users/profile` with the same password stores the hash. -/
theorem auth_profile_stores_plaintext :
    (updateAuthProfile (decodingVerify (.num 7)) numericCast (fun _ => true) noOperators configuredEnv 30
      [("token", .str "issued-at-login"), ("password", .str "Plain123")] [activeUser]).code
      = 200 ∧
    (updateAuthProfile (decodingVerify (.num 7)) numericCast (fun _ => true) noOperators configuredEnv 30
      [("token", .str "issued-at-login"), ("password", .str "Plain123")]
      [activeUser]).users.map (fun u => u.password) = ["Plain123"] ∧
    (updateProfile sampleHash (fun _ => true) noOperators 30 ownerSeven [("password", .str "Plain123")]
      [activeUser]).users.map (fun u => u.password) = [sampleHash "Plain123"] := by
  decide

/-! ## The admin toggle -/

theorem find?_rewriteUser_const (id : Nat) (u1 : User) (users : List User) (u : User)
    (hid : u1.id = id) (h : users.find? (fun v => v.id == id) = some u) :
    (rewriteUser id (fun _ => u1) users).find? (fun v => v.id == id) = some u1 := by
  induction users with
  | nil => simp at h
  | cons w ws ih =>
    unfold rewriteUser
    rw [List.find?_cons] at h
    by_cases hw : (w.id == id) = true
    · simp only [hw, if_true]
      rw [List.find?_cons]
      have : (u1.id == id) = true := by simp [hid]
      simp [this]
    · simp only [hw] at h
      simp only [hw, if_false, Bool.false_eq_true]
      rw [List.find?_cons]
      simp only [hw]
      exact ih h

theorem filter_rewriteUser_const (id : Nat) (u1 : User) (users : List User)
    (hid : u1.id = id) :
    (rewriteUser id (fun _ => u1) users).filter (fun v => v.id != id)
      = users.filter (fun v => v.id != id) := by
  induction users with
  | nil => rfl
  | cons w ws ih =>
    unfold rewriteUser
    by_cases hw : (w.id == id) = true
    · have h1 : (u1.id != id) = false := by simp [hid]
      have h2 : (w.id != id) = false := by simp only [bne, hw, Bool.not_true]
      simp only [hw, if_true, List.filter_cons, h1, h2, Bool.false_eq_true, if_false]
    · simp only [hw, if_false, Bool.false_eq_true, List.filter_cons, ih]

/-- Once `:userId` is cast: the toggle of a stored user answers 200 and stores
that user with `isActive` negated and `updatedAt` refreshed, every other field
as before; the users with another id are unchanged; an ObjectId that no stored
user has is answered with 404 and nothing changes. -/
theorem toggleUserStatus_effect (tSaved userId : Nat) (users : List User) :
    (∀ u, users.find? (fun v => v.id == userId) = some u →
      (toggleUserStatus tSaved userId users).code = 200 ∧
      (toggleUserStatus tSaved userId users).isActive = some (!u.isActive) ∧
      (toggleUserStatus tSaved userId users).users.find? (fun v => v.id == userId)
        = some { u with isActive := !u.isActive,
                        fields := spreadWith u.fields [("updatedAt", .date tSaved)] } ∧
      (∀ k, k ≠ "updatedAt" →
        getKey (spreadWith u.fields [("updatedAt", .date tSaved)]) k = getKey u.fields k) ∧
      (toggleUserStatus tSaved userId users).users.filter (fun v => v.id != userId)
        = users.filter (fun v => v.id != userId)) ∧
    (users.find? (fun v => v.id == userId) = none →
      (toggleUserStatus tSaved userId users).code = 404 ∧
      (toggleUserStatus tSaved userId users).users = users) := by
  constructor
  · intro u hu
    have hid : u.id = userId := by
      have := List.find?_some hu
      simpa using this
    subst hid
    unfold toggleUserStatus
    simp only [hu, saveUser]
    refine ⟨trivial, trivial, ?_, ?_, ?_⟩
    · exact find?_rewriteUser_const u.id _ users u rfl hu
    · intro k hk
      exact getKey_spreadWith_of_not_mem _ _ k (by simpa using hk)
    · exact filter_rewriteUser_const u.id _ users rfl
  · intro hn
    unfold toggleUserStatus
    simp [hn]

/-- C22 (the claim as stated fails): the toggle of a stored user rewrites, next
to `isActive`, the `updatedAt` of that user, which the save of a schema with
`timestamps: true` refreshes; and the path parameter `abc`, the id of no
stored user, is answered with 500, not 404. -/
theorem toggle_refreshes_updatedAt :
    castOid (.str "000000000000000000000009") = some datedUser.id ∧
    getKey datedUser.fields "updatedAt" = some (.date 5) ∧
    ((toggleUserStatusRoute castOid 40 "000000000000000000000009"
      [activeUser, datedUser]).users.find? (fun v => v.id == 9)).map
      (fun v => castDate ((getKey v.fields "updatedAt").getD .null)) = some (some 40) ∧
    (∀ u ∈ [activeUser, datedUser], castOid (.str "abc") ≠ some u.id) ∧
    (toggleUserStatusRoute castOid 40 "abc" [activeUser, datedUser]).code = 500 := by
  refine ⟨by decide, rfl, by decide, by decide, by decide⟩

/-- C22 (amended): when `:userId` casts to the ObjectId of a stored user, the
admin toggle answers 200 and stores that user with `isActive` negated and
`updatedAt` refreshed, every other field as before, and the users with another
id are unchanged; when it casts to an ObjectId that no stored user has, the
toggle answers 404 and changes nothing; when it does not cast to an ObjectId,
the toggle answers 500 and changes nothing. -/
theorem toggle_flips_activation (castId : Value → Option Nat) (tSaved : Nat)
    (userId : String) (users : List User) :
    (∀ id, castId (.str userId) = some id →
      (∀ u, users.find? (fun v => v.id == id) = some u →
        (toggleUserStatusRoute castId tSaved userId users).code = 200 ∧
        (toggleUserStatusRoute castId tSaved userId users).isActive = some (!u.isActive) ∧
        (toggleUserStatusRoute castId tSaved userId users).users.find? (fun v => v.id == id)
          = some { u with isActive := !u.isActive,
                          fields := spreadWith u.fields [("updatedAt", .date tSaved)] } ∧
        (∀ k, k ≠ "updatedAt" →
          getKey (spreadWith u.fields [("updatedAt", .date tSaved)]) k = getKey u.fields k) ∧
        (toggleUserStatusRoute castId tSaved userId users).users.filter (fun v => v.id != id)
          = users.filter (fun v => v.id != id)) ∧
      (users.find? (fun v => v.id == id) = none →
        (toggleUserStatusRoute castId tSaved userId users).code = 404 ∧
        (toggleUserStatusRoute castId tSaved userId users).message = "المستخدم غير موجود" ∧
        (toggleUserStatusRoute castId tSaved userId users).users = users)) ∧
    (castId (.str userId) = none →
      (toggleUserStatusRoute castId tSaved userId users).code = 500 ∧
      (toggleUserStatusRoute castId tSaved userId users).message
        = "خطأ في تغيير حالة المستخدم" ∧
      (toggleUserStatusRoute castId tSaved userId users).users = users) := by
  constructor
  · intro id hc
    have hr : toggleUserStatusRoute castId tSaved userId users
        = toggleUserStatus tSaved id users := by
      unfold toggleUserStatusRoute
      simp only [hc]
    rw [hr]
    refine ⟨(toggleUserStatus_effect tSaved id users).1, ?_⟩
    intro hn
    refine ⟨((toggleUserStatus_effect tSaved id users).2 hn).1, ?_,
      ((toggleUserStatus_effect tSaved id users).2 hn).2⟩
    unfold toggleUserStatus
    simp only [hn]
  · intro hc
    unfold toggleUserStatusRoute
    simp only [hc, and_self]

theorem toggle_flips_activation_witness :
    castOid (.str "000000000000000000000009") = some 9 ∧
    (toggleUserStatusRoute castOid 40 "000000000000000000000009"
      [activeUser, datedUser]).code = 200 ∧
    (toggleUserStatusRoute castOid 40 "000000000000000000000009"
      [activeUser, datedUser]).isActive = some false ∧
    (toggleUserStatusRoute castOid 40 "000000000000000000000004"
      [activeUser, datedUser]).code = 404 ∧
    (toggleUserStatusRoute castOid 40 "not-an-id" [activeUser, datedUser]).code = 500 := by
  have h := (toggle_flips_activation castOid 40 "000000000000000000000009"
    [activeUser, datedUser]).1 9 (by decide)
  have h4 := (toggle_flips_activation castOid 40 "000000000000000000000004"
    [activeUser, datedUser]).1 4 (by decide)
  have h5 := (toggle_flips_activation castOid 40 "not-an-id" [activeUser, datedUser]).2
    (by decide)
  have hf : [activeUser, datedUser].find? (fun v => v.id == 9) = some datedUser := by
    simp [List.find?_cons, activeUser, datedUser]
  have hn : [activeUser, datedUser].find? (fun v => v.id == 4) = none := by
    simp [List.find?_cons, activeUser, datedUser]
  exact ⟨by decide, (h.1 datedUser hf).1, (h.1 datedUser hf).2.1, (h4.2 hn).1, h5.1⟩

/-! ## The public listing -/

theorem listingConditions_keys (parseInt : Value → Option Int) (params conds : Obj)
    (h : listingConditions parseInt params = some conds) :
    ∀ kv ∈ conds, kv.1 ≠ "status" ∧ kv.1 ≠ "isPublished" := by
  unfold listingConditions at h
  simp only [Option.map_eq_some'] at h
  obtain ⟨fs, hfs, rfl⟩ := h
  have hf : ∀ kv ∈ fs, kv.1 = "features" := by
    intro kv hkv
    split at hfs
    · simp only [Option.some.injEq] at hfs
      subst hfs
      simp at hkv
    · split at hfs
      · simp only [Option.some.injEq] at hfs
        subst hfs
        simp at hkv
      · simp only [Option.some.injEq] at hfs
        subst hfs
        simp only [List.mem_singleton] at hkv
        rw [hkv]
    · split at hfs
      · simp at hfs
      · simp only [Option.some.injEq] at hfs
        subst hfs
        simp at hkv
  intro kv hkv
  simp only [List.mem_append] at hkv
  rcases hkv with ((((((((hk | hk) | hk) | hk) | hk) | hk) | hk) | hk) | hk)
  all_goals first
    | (rw [hf kv hk]; simp)
    | ((repeat' split at hk) <;> simp at hk <;> (rw [hk]; simp))

theorem getKey_foldl_setKey (conds q : Obj) (k : String) (h : ∀ kv ∈ conds, kv.1 ≠ k) :
    getKey (conds.foldl (fun q kv => setKey q kv.1 kv.2) q) k = getKey q k := by
  induction conds generalizing q with
  | nil => rfl
  | cons c cs ih =>
    rw [List.foldl_cons, ih _ (fun kv hkv => h kv (by simp [hkv]))]
    unfold setKey
    exact getKey_spreadWith_of_not_mem _ _ k (by
      have := h c (by simp)
      simpa using fun e => this e.symm)

/-- The query object of the listing always carries its first two conditions. -/
theorem listingQuery_guard (parseInt : Value → Option Int) (params query : Obj)
    (h : listingQuery parseInt params = some query) :
    getKey query "status" = some (.str "approved") ∧
    getKey query "isPublished" = some (.bool true) := by
  unfold listingQuery at h
  simp only [Option.map_eq_some'] at h
  obtain ⟨conds, hc, rfl⟩ := h
  have hk := listingConditions_keys parseInt params conds hc
  constructor
  · rw [getKey_foldl_setKey conds _ "status" (fun kv hkv => (hk kv hkv).1)]
    rfl
  · rw [getKey_foldl_setKey conds _ "isPublished" (fun kv hkv => (hk kv hkv).2)]
    rfl

theorem mem_window (skip limit : Option Int) (l r : List Property)
    (h : window skip limit l = some r) : ∀ p ∈ r, p ∈ l := by
  unfold window at h
  split at h
  · split at h
    · simp at h
    · split at h
      · simp only [Option.some.injEq] at h
        subst h
        intro p hp
        exact List.mem_of_mem_drop hp
      · simp only [Option.some.injEq] at h
        subst h
        intro p hp
        exact List.mem_of_mem_drop (List.mem_of_mem_take hp)
  · simp at h

/-- C23: for every combination of query parameters, every property that
`GET /api/properties` returns is a stored property with status `'approved'`
and `isPublished = true`, and the query object it builds always holds these two
conditions, whatever the parameters. -/
theorem listing_only_approved_published (parseInt : Value → Option Int)
    (matchOther : Obj → Property → Bool)
    (before : Value → Int → Property → Property → Bool) (params : Obj)
    (db : List Property) :
    (∀ p ∈ (listProperties parseInt matchOther before params db).properties,
      p ∈ db ∧ p.status = "approved" ∧ p.isPublished = true) ∧
    (∀ query, listingQuery parseInt params = some query →
      getKey query "status" = some (.str "approved") ∧
      getKey query "isPublished" = some (.bool true)) := by
  refine ⟨?_, fun query h => listingQuery_guard parseInt params query h⟩
  intro p hp
  unfold listProperties at hp
  simp only [] at hp
  cases hq : listingQuery parseInt params with
  | none => simp [hq] at hp
  | some query =>
    simp only [hq] at hp
    obtain ⟨hs, hi⟩ := listingQuery_guard parseInt params query hq
    split at hp
    · simp at hp
    · rename_i props hw
      simp only [] at hp
      have hm := mem_window _ _ _ _ hw p hp
      rw [(List.perm_insertionSort _ _).mem_iff] at hm
      rw [List.mem_filter] at hm
      obtain ⟨hdb, hmatch⟩ := hm
      unfold matchesQuery at hmatch
      rw [hs, hi] at hmatch
      simp only [Bool.and_eq_true, beq_iff_eq] at hmatch
      exact ⟨hdb, hmatch.1.1, hmatch.1.2⟩

/-! ## Login -/

/-- C24 (the claim as stated fails): a wrong password for an active account
and the right password for a disabled account are both answered with 401, but
with different messages; and a password that is not a string (the number
12345678, which `validateLogin` lets through) is answered with 500 for a
stored email and with 401 for an unknown one. -/
theorem login_messages_differ :
    (login sampleCompare (compactJwt zeroMac 100 200) configuredEnv 50
      [("email", .str "a@x.com"), ("password", .str "wrong-one")]
      [activeUser, disabledUser]).code = 401 ∧
    (login sampleCompare (compactJwt zeroMac 100 200) configuredEnv 50
      [("email", .str "b@x.com"), ("password", .str "Abcdefg1")]
      [activeUser, disabledUser]).code = 401 ∧
    (login sampleCompare (compactJwt zeroMac 100 200) configuredEnv 50
      [("email", .str "a@x.com"), ("password", .str "wrong-one")]
      [activeUser, disabledUser]).message
      ≠ (login sampleCompare (compactJwt zeroMac 100 200) configuredEnv 50
      [("email", .str "b@x.com"), ("password", .str "Abcdefg1")]
      [activeUser, disabledUser]).message ∧
    (login sampleCompare (compactJwt zeroMac 100 200) configuredEnv 50
      [("email", .str "a@x.com"), ("password", .num 12345678)]
      [activeUser, disabledUser]).code = 500 ∧
    (login sampleCompare (compactJwt zeroMac 100 200) configuredEnv 50
      [("email", .str "nobody@x.com"), ("password", .num 12345678)]
      [activeUser, disabledUser]).code = 401 := by
  decide

/-- C24 (amended): a login with an email no stored user has, whatever the
password, or with a string password that does not compare, is answered with
401 and one common message; a login with the right password for a disabled
account is answered with 401 and the message `الحساب غير نشط`; a login for a
stored email with a password that is not a string is answered with 500 and
the message of the catch block; none of the four changes the user store, signs
a token or returns a user. -/
theorem login_rejections (compare : String → String → Bool)
    (jwtSign : Obj → String → String) (env : Env) (tNow : Nat) (body : Obj)
    (users : List User) (email : String)
    (he : getKey body "email" = some (.str email)) :
    (users.find? (fun u => u.email == email) = none →
      login compare jwtSign env tNow body users
        = authFailure 401 "البريد الإلكتروني أو كلمة المرور غير صحيحة" users) ∧
    (∀ u password, users.find? (fun v => v.email == email) = some u →
      getKey body "password" = some (.str password) → compare password u.password = false →
      login compare jwtSign env tNow body users
        = authFailure 401 "البريد الإلكتروني أو كلمة المرور غير صحيحة" users) ∧
    (∀ u password, users.find? (fun v => v.email == email) = some u →
      getKey body "password" = some (.str password) → compare password u.password = true →
      u.isActive = false →
      login compare jwtSign env tNow body users = authFailure 401 "الحساب غير نشط" users) ∧
    (∀ u, users.find? (fun v => v.email == email) = some u →
      (∀ password, getKey body "password" ≠ some (.str password)) →
      login compare jwtSign env tNow body users
        = authFailure 500 "خطأ في تسجيل الدخول" users) := by
  refine ⟨?_, ?_, ?_, ?_⟩
  · intro hn
    simp [login, he, hn]
  · intro u password hu hp hc
    simp [login, he, hp, hu, hc]
  · intro u password hu hp hc ha
    simp [login, he, hp, hu, hc, ha]
  · intro u hu hp
    unfold login
    simp only [he, hu]

theorem login_rejections_witness :
    (login sampleCompare (compactJwt zeroMac 100 200) configuredEnv 50
      [("email", .str "nobody@x.com"), ("password", .str "Abcdefg1")]
      [activeUser, disabledUser]).code = 401 ∧
    (login sampleCompare (compactJwt zeroMac 100 200) configuredEnv 50
      [("email", .str "b@x.com"), ("password", .str "Abcdefg1")]
      [activeUser, disabledUser]).message = "الحساب غير نشط" ∧
    (login sampleCompare (compactJwt zeroMac 100 200) configuredEnv 50
      [("email", .str "a@x.com"), ("password", .num 12345678)]
      [activeUser, disabledUser]).code = 500 := by
  have h1 := (login_rejections sampleCompare (compactJwt zeroMac 100 200) configuredEnv 50
    [("email", .str "nobody@x.com"), ("password", .str "Abcdefg1")]
    [activeUser, disabledUser] "nobody@x.com" rfl).1
    (by simp [List.find?_cons, activeUser, disabledUser])
  have h2 := (login_rejections sampleCompare (compactJwt zeroMac 100 200) configuredEnv 50
    [("email", .str "b@x.com"), ("password", .str "Abcdefg1")]
    [activeUser, disabledUser] "b@x.com" rfl).2.2.1 disabledUser "Abcdefg1"
    (by simp [List.find?_cons, activeUser, disabledUser]) rfl (by decide) rfl
  have h3 := (login_rejections sampleCompare (compactJwt zeroMac 100 200) configuredEnv 50
    [("email", .str "a@x.com"), ("password", .num 12345678)]
    [activeUser, disabledUser] "a@x.com" rfl).2.2.2 activeUser
    (by simp [List.find?_cons, activeUser, disabledUser])
    (by intro password h; simp [getKey] at h)
  rw [h1, h2, h3]
  exact ⟨rfl, rfl, rfl⟩

/-! ## Registration -/

theorem getKey_setKey_ne (o : Obj) (k k1 : String) (v : Value) (h : k1 ≠ k) :
    getKey (setKey o k v) k1 = getKey o k1 := by
  unfold setKey
  exact getKey_spreadWith_of_not_mem _ _ k1 (by simpa using h)

theorem validateCredentials_next (body validated : Obj)
    (sanitizedName sanitizedEmail sanitizedPhone : List Char) (password confirmPassword : Value)
    (h : validateCredentials body sanitizedName sanitizedEmail sanitizedPhone password
      confirmPassword = .next validated) :
    userTypeRefused (getKey body "userType") = false ∧
    getKey validated "userType" = getKey body "userType" := by
  unfold validateCredentials at h
  simp only [] at h
  split_ifs at h with h1 h2 h3 h4 h5 h6 h7
  · simp only [Validation.next.injEq] at h
    subst h
    refine ⟨by simpa using h4, ?_⟩
    rw [getKey_setKey_ne _ _ _ _ (by decide), getKey_setKey_ne _ _ _ _ (by decide),
      getKey_setKey_ne _ _ _ _ (by decide), getKey_setKey_ne _ _ _ _ (by decide),
      getKey_setKey_ne _ _ _ _ (by decide)]
  · simp only [Validation.next.injEq] at h
    subst h
    refine ⟨by simpa using h4, ?_⟩
    rw [getKey_setKey_ne _ _ _ _ (by decide), getKey_setKey_ne _ _ _ _ (by decide),
      getKey_setKey_ne _ _ _ _ (by decide)]

theorem validateRegistration_next (body validated : Obj)
    (h : validateRegistration body = .next validated) :
    userTypeRefused (getKey body "userType") = false ∧
    getKey validated "userType" = getKey body "userType" := by
  unfold validateRegistration at h
  simp only [] at h
  split_ifs at h with h1 h2
  split at h
  · split_ifs at h with h3
    split at h
    · split_ifs at h with h4
      exact validateCredentials_next _ _ _ _ _ _ _ h
    · exact absurd h (by simp)
  · exact absurd h (by simp)

/-- The `userType` that `register` writes, given what validation let through. -/
theorem chosenUserType_validated (userType : Option Value) (t : String)
    (hr : userTypeRefused userType = false) (h : chosenUserType userType = some t) :
    (t = "individual" ∨ t = "agency") ∧ (userType = none → t = "individual") := by
  unfold userTypeRefused at hr
  unfold chosenUserType at h
  split at h
  · rename_i s
    by_cases hs : s = ""
    · subst hs
      simp only [beq_self_eq_true, if_true, Option.some.injEq] at h
      exact ⟨Or.inl h.symm, fun e => absurd e (by simp)⟩
    · have hb : (s == "") = false := by simpa using hs
      simp only [hb, Bool.false_eq_true, if_false, Option.some.injEq] at h
      subst h
      have ht : truthy (some (Value.str s)) = true := by
        simp [truthy, hs]
      simp only [ht, Bool.true_and, Bool.not_eq_false'] at hr
      refine ⟨?_, fun e => absurd e (by simp)⟩
      simpa using hr
  · rename_i v hv
    by_cases ht : truthy (some v) = true
    · simp [ht] at h
    · simp only [ht, Bool.false_eq_true, if_false, Option.some.injEq] at h
      exact ⟨Or.inl h.symm, fun e => absurd e (by simp)⟩
  · simp only [Option.some.injEq] at h
    exact ⟨Or.inl h.symm, fun _ => h.symm⟩

/-- A run of `register` either fails, with 400 or 500 and the store as it
was, or answers 201 and appends one user, with the fresh id and the `userType`
chosen from the body, which is also the user of the response. -/
theorem register_cases (hash : String → String) (jwtSign : Obj → String → String)
    (env : Env) (newId tNow : Nat) (body : Obj) (users : List User) :
    ((register hash jwtSign env newId tNow body users).code ≠ 201 ∧
      (register hash jwtSign env newId tNow body users).users = users ∧
      (register hash jwtSign env newId tNow body users).user = none) ∨
    ∃ u t, chosenUserType (getKey body "userType") = some t ∧ u.userType = t ∧ u.id = newId ∧
      u.isActive = true ∧
      (register hash jwtSign env newId tNow body users).code = 201 ∧
      (register hash jwtSign env newId tNow body users).users = users ++ [u] ∧
      (register hash jwtSign env newId tNow body users).user = some (toResponse u) := by
  unfold register
  split
  · split_ifs with hex
    · exact Or.inl ⟨by simp [authFailure], rfl, rfl⟩
    · simp only []
      split
      · exact Or.inl ⟨by simp [authFailure], rfl, rfl⟩
      · rename_i t ht
        split_ifs
        all_goals first
          | exact Or.inl ⟨by simp [authFailure], rfl, rfl⟩
          | exact Or.inr ⟨_, t, ht, rfl, rfl, rfl, rfl, rfl, rfl⟩
  · exact Or.inl ⟨by simp [authFailure], rfl, rfl⟩

/-- When the body carries strings in `name`, `email`, `phone` and `password`,
no stored user has the email, and the new document passes the schema,
`register` answers 201. -/
theorem register_succeeds (hash : String → String) (jwtSign : Obj → String → String)
    (env : Env) (newId tNow : Nat) (body : Obj) (users : List User)
    (name email phone password t : String)
    (hn : getKey body "name" = some (.str name)) (he : getKey body "email" = some (.str email))
    (hph : getKey body "phone" = some (.str phone))
    (hpw : getKey body "password" = some (.str password))
    (hfree : users.find? (fun u => u.email == email) = none)
    (ht : chosenUserType (getKey body "userType") = some t)
    (hvalid : userSchemaValid name email phone (hash password) t = true) :
    (register hash jwtSign env newId tNow body users).code = 201 := by
  unfold register
  simp only [hn, he, hph, hpw, hfree, ht, hvalid]
  split_ifs <;> first | rfl | simp_all

/-- C25: for every registration body that `validateRegistration` lets through,
`POST /api/auth/register` answers 201 exactly when it creates a user: then the
store is the old one followed by one new user, who carries the fresh id, is
the user of the response, and has `userType` `'individual'` or `'agency'`
(never `'admin'`), `'individual'` when the body names none; otherwise the
store is unchanged. The user is created whenever the validated body carries a
string password, its email is not taken and the new document passes the
schema. -/
theorem registered_userType (hash : String → String) (jwtSign : Obj → String → String)
    (env : Env) (newId tNow : Nat) (body validated : Obj) (users : List User)
    (hv : validateRegistration body = .next validated) :
    ((register hash jwtSign env newId tNow validated users).code = 201 →
      ∃ u, (register hash jwtSign env newId tNow validated users).users = users ++ [u] ∧
        (register hash jwtSign env newId tNow validated users).user = some (toResponse u) ∧
        u.id = newId ∧
        (u.userType = "individual" ∨ u.userType = "agency") ∧ u.userType ≠ "admin" ∧
        (getKey body "userType" = none → u.userType = "individual")) ∧
    ((register hash jwtSign env newId tNow validated users).code ≠ 201 →
      (register hash jwtSign env newId tNow validated users).users = users) ∧
    (∀ name email phone password t,
      getKey validated "name" = some (.str name) → getKey validated "email" = some (.str email) →
      getKey validated "phone" = some (.str phone) →
      getKey validated "password" = some (.str password) →
      users.find? (fun u => u.email == email) = none →
      chosenUserType (getKey validated "userType") = some t →
      userSchemaValid name email phone (hash password) t = true →
      (register hash jwtSign env newId tNow validated users).code = 201) := by
  obtain ⟨hr, hk⟩ := validateRegistration_next body validated hv
  rcases register_cases hash jwtSign env newId tNow validated users with
    ⟨h1, h2, _⟩ | ⟨u, t, ht, hut, hid, _, hc, hus, hres⟩
  · refine ⟨fun h => absurd h h1, fun _ => h2, ?_⟩
    intro name email phone password t hn he hph hpw hfree ht hvalid
    exact register_succeeds hash jwtSign env newId tNow validated users name email phone
      password t hn he hph hpw hfree ht hvalid
  · rw [hk] at ht
    have hch := chosenUserType_validated (getKey body "userType") t hr ht
    refine ⟨fun _ => ⟨u, hus, hres, hid, ?_, ?_, ?_⟩, fun h => absurd hc h, fun _ _ _ _ _ _ _ _ _ _ _ _ => hc⟩
    · rw [hut]
      exact hch.1
    · rw [hut]
      rcases hch.1 with e | e <;> rw [e] <;> decide
    · intro hnone
      rw [hut]
      exact hch.2 hnone

theorem registered_userType_witness :
    passed (validateRegistration (registrationBody "Abcdefg1" "0770 123 4567")) = true ∧
    (register sampleHash (compactJwt zeroMac 100 200) configuredEnv 12 60
      (validatedBody (validateRegistration (registrationBody "Abcdefg1" "0770 123 4567")))
      [activeUser]).code = 201 ∧
    (register sampleHash (compactJwt zeroMac 100 200) configuredEnv 12 60
      (validatedBody (validateRegistration (registrationBody "Abcdefg1" "0770 123 4567")))
      [activeUser]).users.map (fun u => (u.id, u.email, u.userType))
      = [(7, "a@x.com", "individual"), (12, "ali@x.com", "individual")] ∧
    ∃ u, (register sampleHash (compactJwt zeroMac 100 200) configuredEnv 12 60
        (validatedBody (validateRegistration (registrationBody "Abcdefg1" "0770 123 4567")))
        [activeUser]).users = [activeUser] ++ [u] ∧
      (register sampleHash (compactJwt zeroMac 100 200) configuredEnv 12 60
        (validatedBody (validateRegistration (registrationBody "Abcdefg1" "0770 123 4567")))
        [activeUser]).user = some (toResponse u) ∧
      u.id = 12 ∧ (u.userType = "individual" ∨ u.userType = "agency") ∧
      u.userType ≠ "admin" ∧
      (getKey (registrationBody "Abcdefg1" "0770 123 4567") "userType" = none →
        u.userType = "individual") := by
  have hv : validateRegistration (registrationBody "Abcdefg1" "0770 123 4567")
      = .next (validatedBody (validateRegistration (registrationBody "Abcdefg1" "0770 123 4567"))) := by
    rfl
  have hc : (register sampleHash (compactJwt zeroMac 100 200) configuredEnv 12 60
      (validatedBody (validateRegistration (registrationBody "Abcdefg1" "0770 123 4567")))
      [activeUser]).code = 201 := by decide
  exact ⟨by decide, hc, by decide,
    (registered_userType sampleHash (compactJwt zeroMac 100 200) configuredEnv 12 60
      (registrationBody "Abcdefg1" "0770 123 4567") _ [activeUser] hv).1 hc⟩

/-- C26 (evaluation of the code): the password `aaaaaaaa`, eight lower-case
letters without an upper-case letter or a digit, fails `passwordRegex`, yet
`validateRegistration` calls `next` and the registration answers 201; a
password of seven characters is refused. -/
theorem weak_password_accepted :
    passwordRegex.test "aaaaaaaa".data = false ∧
    passed (validateRegistration (registrationBody "aaaaaaaa" "07701234567")) = true ∧
    (register sampleHash (compactJwt zeroMac 100 200) configuredEnv 12 60
      (validatedBody (validateRegistration (registrationBody "aaaaaaaa" "07701234567")))
      []).code = 201 ∧
    passed (validateRegistration (registrationBody "Abcdef1" "07701234567")) = false := by
  decide

/-- C30 (evaluation of the code): the phone number `00964 770 123 4567` passes
`phoneRegex` after the removal of its spaces and `validateRegistration` calls
`next`, but the number fails the pattern of `userSchema.phone` and the
registration answers 500; the same registration with `0770 123 4567` answers
201. -/
theorem accepted_phone_fails_schema :
    phoneRegex.test (removeSpaces "00964 770 123 4567".data) = true ∧
    schemaPhoneRegex.test (removeSpaces "00964 770 123 4567".data) = false ∧
    passed (validateRegistration (registrationBody "Abcdefg1" "00964 770 123 4567")) = true ∧
    (register sampleHash (compactJwt zeroMac 100 200) configuredEnv 12 60
      (validatedBody (validateRegistration (registrationBody "Abcdefg1" "00964 770 123 4567")))
      []).code = 500 ∧
    (register sampleHash (compactJwt zeroMac 100 200) configuredEnv 12 60
      (validatedBody (validateRegistration (registrationBody "Abcdefg1" "0770 123 4567")))
      []).code = 201 := by
  decide

/-! ## Issue and resolve -/

/-- A token that verifies to the id of an active stored user, in a header that
passes the checks, is accepted and yields that user as principal. -/
theorem issued_token_accepted (jwtVerify : String → String → VerifyResult)
    (castId : Value → Option Nat) (env : Env) (users : List User) (token : List Char)
    (payload uid : Value) (user : User) (hsp : ' ' ∉ token) (hlo : 10 ≤ token.length)
    (hhi : token.length ≤ 500)
    (henv : (secretUnusable env && isProduction env) = false)
    (hv : jwtVerify (String.mk token) (secretInUse env) = .decoded payload)
    (hu : decodedUserId payload = some uid) (ht : truthy (some uid) = true)
    (hc : castId uid = some user.id)
    (hf : users.find? (fun u => u.id == user.id) = some user) (ha : user.isActive = true) :
    (authenticateToken jwtVerify castId env users
      (some ("Bearer " ++ String.mk token))).next = true ∧
    (authenticateToken jwtVerify castId env users
      (some ("Bearer " ++ String.mk token))).user
      = some { userId := user.id, email := user.email, userType := user.userType } := by
  rw [authenticateToken_reaches jwtVerify castId env users token hsp hlo hhi]
  simp only [henv, Bool.false_eq_true, if_false]
  have hn : payload ≠ .null := by
    intro e
    rw [e] at hu
    simp [decodedUserId] at hu
  rw [resolveToken_payload jwtVerify castId users _ _ payload hv hn, hu]
  unfold attachUser
  simp [ht, hc, hf, ha]

set_option maxRecDepth 1000000 in
/-- C29 (evaluation of the code): the active user 11 has an email of 245
characters that `emailRegex` (with its bound of 255) and the schema pattern
accept; `login` answers 200 with a token of 549 characters; presented as
`Bearer <token>` to a verifier that decodes it to user 11, the token is refused
by the length check: 401, `next` not called, no call to `jwt.verify`. -/
theorem long_email_token_refused :
    (emailRegex.test (jsTrim (toLowerCase longEmail.data)) &&
      decide (utf16Length (jsTrim (toLowerCase longEmail.data)) ≤ 255)) = true ∧
    schemaEmailRegex.test longEmail.data = true ∧
    (login sampleCompare (compactJwt zeroMac 1730000000 1730604800) configuredEnv 50
      [("email", .str longEmail), ("password", .str "Abcdefg1")] [longEmailUser]).code = 200 ∧
    (login sampleCompare (compactJwt zeroMac 1730000000 1730604800) configuredEnv 50
      [("email", .str longEmail), ("password", .str "Abcdefg1")]
      [longEmailUser]).token.map String.length = some 549 ∧
    (authenticateToken (decodingVerify (.num 11)) numericCast configuredEnv [longEmailUser]
      (some ("Bearer " ++ (login sampleCompare (compactJwt zeroMac 1730000000 1730604800)
        configuredEnv 50 [("email", .str longEmail), ("password", .str "Abcdefg1")]
        [longEmailUser]).token.getD ""))).code = some 401 ∧
    (authenticateToken (decodingVerify (.num 11)) numericCast configuredEnv [longEmailUser]
      (some ("Bearer " ++ (login sampleCompare (compactJwt zeroMac 1730000000 1730604800)
        configuredEnv 50 [("email", .str longEmail), ("password", .str "Abcdefg1")]
        [longEmailUser]).token.getD ""))).next = false ∧
    (authenticateToken (decodingVerify (.num 11)) numericCast configuredEnv [longEmailUser]
      (some ("Bearer " ++ (login sampleCompare (compactJwt zeroMac 1730000000 1730604800)
        configuredEnv 50 [("email", .str longEmail), ("password", .str "Abcdefg1")]
        [longEmailUser]).token.getD ""))).trace.length = 0 := by
  refine ⟨by decide, by decide, by decide, by decide, by decide, by decide, by decide⟩

theorem listing_only_approved_published_witness :
    (listProperties sampleParseInt (fun _ _ => true) storedOrder
      [("status", .str "pending"), ("isPublished", .str "false"), ("limit", .str "10")]
      [pendingListing, publishedListing]).code = 200 ∧
    (listProperties sampleParseInt (fun _ _ => true) storedOrder
      [("status", .str "pending"), ("isPublished", .str "false"), ("limit", .str "10")]
      [pendingListing, publishedListing]).properties.map (fun p => (p.status, p.isPublished))
      = [("approved", true)] ∧
    ∀ p ∈ (listProperties sampleParseInt (fun _ _ => true) storedOrder
      [("status", .str "pending"), ("isPublished", .str "false"), ("limit", .str "10")]
      [pendingListing, publishedListing]).properties, p.status = "approved" := by
  refine ⟨by decide, by decide, fun p hp => ?_⟩
  exact ((listing_only_approved_published sampleParseInt (fun _ _ => true) storedOrder
    [("status", .str "pending"), ("isPublished", .str "false"), ("limit", .str "10")]
    [pendingListing, publishedListing]).1 p hp).2.1

end Darigo
